import Mathlib

/-!
Verification of the StreetControl competition engine.

Shallow embedding of the JavaScript services of the repository:
the vote tally (`validationService.js`), the ordering engine and state
machine (`stateMachine.js`), the attempt store (`Attempt.js` over the
SQLite schema `init_local_schema.sql`), the ranking engine
(`rankingService.js`) and the sync resolver (`sync.js` over the remote
schema `init_remote_schema.sql`).

JavaScript `Map` objects are embedded as association lists with the
insertion-order semantics of ECMAScript (`set` of an existing key
updates the value in place, a new key is appended at the end).
JavaScript numbers that carry weights are embedded as rationals.
`Array.prototype.sort` is stable per ECMAScript 2019; it is embedded
as a stable insertion sort driven by the source comparator.
-/

namespace StreetControl

/-! ### Association lists with ECMAScript Map semantics -/

/-- Lookup in an association list, first match wins (JS Map.get). -/
def mlookup {α β : Type} [DecidableEq α] : List (α × β) → α → Option β
  | [], _ => none
  | (k, v) :: rest, key => if k = key then some v else mlookup rest key

/-- JS Map.set: an existing key keeps its position and gets the new value,
a fresh key is appended at the end. -/
def mset {α β : Type} [DecidableEq α] : List (α × β) → α → β → List (α × β)
  | [], key, v => [(key, v)]
  | (k, w) :: rest, key, v =>
    if k = key then (key, v) :: rest else (k, w) :: mset rest key v

/-- JS Map.delete: removes the entry with the given key, if any. -/
def mdelete {α β : Type} [DecidableEq α] : List (α × β) → α → List (α × β)
  | [], _ => []
  | (k, w) :: rest, key =>
    if k = key then rest else (k, w) :: mdelete rest key

/-! ### Vote tally (`src/backend/src/services/validationService.js`)

A ballot is the in-memory `Map<judgeRole, vote>` of one attempt; the
service state is the outer `Map<attemptId, ballot>`.  Roles and votes
arrive from the sockets as strings and are validated by the service
itself, so they are embedded as `String`. -/

/-- One attempt's ballot: judge role → vote, in insertion order. -/
abbrev Ballot := List (String × String)

/-- The in-memory vote store: attempt id → ballot. -/
abbrev VoteState := List (Nat × Ballot)

def validRoles : List String := ["HEAD", "LEFT", "RIGHT"]

def validVotes : List String := ["WHITE", "RED"]

/-- `_calculateResult`: two or more WHITE → VALID, else two or more
RED → INVALID, else the safety fallback INVALID. -/
def calculateResult (b : Ballot) : String :=
  let votesArray := b.map Prod.snd
  let whiteCount := votesArray.countP (fun v => v = "WHITE")
  let redCount := votesArray.countP (fun v => v = "RED")
  if 2 ≤ whiteCount then "VALID"
  else if 2 ≤ redCount then "INVALID"
  else "INVALID"

/-- Return value of `registerVote`. -/
structure RegisterOut where
  isComplete : Bool
  result : Option String
  votes : Ballot
  deriving Repr, DecidableEq

/-- `registerVote(attemptId, judgeRole, vote)`: validates the role and
the vote (throwing before the map is touched), stores or overwrites the
vote, and reports completeness and, when complete, the outcome. -/
def registerVote (s : VoteState) (attemptId : Nat) (judgeRole vote : String) :
    Except String (VoteState × RegisterOut) :=
  if judgeRole ∉ validRoles then
    .error ("Invalid judge role: " ++ judgeRole)
  else if vote ∉ validVotes then
    .error ("Invalid vote: " ++ vote)
  else
    let attemptVotes := (mlookup s attemptId).getD []
    let attemptVotes := mset attemptVotes judgeRole vote
    let s := mset s attemptId attemptVotes
    let isComplete := attemptVotes.length == 3
    let result := if isComplete then some (calculateResult attemptVotes) else none
    .ok (s, ⟨isComplete, result, attemptVotes⟩)

/-- `clearVotes(attemptId)`. -/
def clearVotes (s : VoteState) (attemptId : Nat) : VoteState :=
  mdelete s attemptId

/-- `clearAllVotes()`. -/
def clearAllVotes (_s : VoteState) : VoteState := []

/-- `getVoteCount(attemptId)`. -/
def getVoteCount (s : VoteState) (attemptId : Nat) : Nat :=
  ((mlookup s attemptId).getD []).length

/-- `hasVoted(attemptId, judgeRole)`. -/
def hasVoted (s : VoteState) (attemptId : Nat) (judgeRole : String) : Bool :=
  ((mlookup s attemptId).getD []).any (fun kv => kv.1 = judgeRole)

/-- Well-formedness of one ballot: distinct judge roles, all keys valid
roles, all values valid votes. -/
def BallotOK (b : Ballot) : Prop :=
  (b.map Prod.fst).Nodup ∧ ∀ kv ∈ b, kv.1 ∈ validRoles ∧ kv.2 ∈ validVotes

/-- Well-formedness of the whole vote store. -/
def VoteStateOK (s : VoteState) : Prop := ∀ e ∈ s, BallotOK e.2

/-- Operations a client may perform against the tally. -/
inductive VoteOp where
  | reg (attemptId : Nat) (judgeRole vote : String)
  | clear (attemptId : Nat)
  | clearAll

/-- One operation against the service state; a thrown `registerVote`
leaves the state untouched. -/
def applyOp (s : VoteState) : VoteOp → VoteState
  | .reg a r v =>
    match registerVote s a r v with
    | .ok (s', _) => s'
    | .error _ => s
  | .clear a => clearVotes s a
  | .clearAll => clearAllVotes s

/-- The state after a sequence of operations from the initial empty store. -/
def runOps (ops : List VoteOp) : VoteState := ops.foldl applyOp []

/-! ### Stable sorting

`Array.prototype.sort` with a consistent comparator is stable
(ECMAScript 2019); every stable sort produces the same output, embedded
here as insertion sort from the right: an element is placed before the
first of the later-input elements that does not compare strictly below
it, so input order is kept on comparator ties. -/

/-- Insert `x` before the first element `y` with comparator value
`c(x, y) <= 0`; `le x y` embeds that test. -/
def stableInsert {α : Type} (le : α → α → Bool) (x : α) : List α → List α
  | [] => [x]
  | y :: l => if le x y then x :: y :: l else y :: stableInsert le x l

/-- Stable sort by the boolean test `le`. -/
def stableSort {α : Type} (le : α → α → Bool) (l : List α) : List α :=
  l.foldr (stableInsert le) []

/-! ### Ordering engine (`stateMachine.js`, `src/unnamed/part_002`)

`Flight.getGroupEntries` joins group entries with registrations and
returns them `ORDER BY ge.start_ord, ...`; the entry rows carry
`reg_id`, `start_ord` and the registration's `bodyweight_kg`.  Weights
are embedded as rationals. -/

/-- One row of `Flight.getGroupEntries`. -/
structure GroupEntry where
  reg_id : Nat
  start_ord : Nat
  bodyweight_kg : Rat
  deriving Repr, DecidableEq

/-- One row of the local `attempts` table. -/
structure AttemptRow where
  id : Nat
  reg_id : Nat
  lift_id : String
  attempt_no : Nat
  weight_kg : Rat
  status : String
  deriving Repr, DecidableEq

/-- One row of the local `registration_maxes` table (declared openers). -/
structure OpenerRow where
  reg_id : Nat
  lift_id : String
  max_kg : Rat
  deriving Repr, DecidableEq

/-- Modelled from the spec: `attemptsFor(regId, liftId)` — the model
method `Attempt.findByRegistrationAndLift` called by the state machine
is not among the sources; the spec fixes it as the attempts of the
(registration, lift) pair in stable order. Since `(reg_id, lift_id,
attempt_no)` is unique and the callers only search the list by
`attempt_no`, store order is kept. -/
def findByRegistrationAndLift (attempts : List AttemptRow)
    (regId : Nat) (liftId : String) : List AttemptRow :=
  attempts.filter (fun a => a.reg_id == regId && a.lift_id == liftId)

/-- `Registration.getOpeners(regId)[liftId]`: the declared opener of a
registration for a lift, from `registration_maxes`. -/
def getOpenerFor (maxes : List OpenerRow) (regId : Nat) (liftId : String) :
    Option Rat :=
  (maxes.find? (fun r => r.reg_id == regId && r.lift_id == liftId)).map
    (fun r => r.max_kg)

/-- Element of the queue built by `getUpcomingOrder`: a group entry
together with its `declaredWeight`. -/
structure QueueEntry where
  entry : GroupEntry
  declaredWeight : Rat
  deriving Repr, DecidableEq

/-- The source comparator, as the test `comparator(a, b) <= 0`:
declared weight ascending, then bodyweight descending. -/
def upcomingLe (a b : QueueEntry) : Bool :=
  if a.declaredWeight ≠ b.declaredWeight then
    a.declaredWeight - b.declaredWeight ≤ 0
  else
    b.entry.bodyweight_kg - a.entry.bodyweight_kg ≤ 0

/-- Per-entry body of `getUpcomingOrder`: skips an athlete who already
attempted this round, resolves the declared weight (opener for round 1,
the round's PENDING attempt row otherwise), and skips athletes with no
or zero declared weight. -/
def resolveEntry (attempts : List AttemptRow) (maxes : List OpenerRow)
    (liftId : String) (round : Nat) (entry : GroupEntry) : Option QueueEntry :=
  let atts := findByRegistrationAndLift attempts entry.reg_id liftId
  let hasAttemptedThisRound :=
    atts.any (fun a => a.attempt_no == round && a.status != "PENDING")
  if hasAttemptedThisRound then none
  else
    let declaredWeight : Option Rat :=
      if round == 1 then getOpenerFor maxes entry.reg_id liftId
      else
        (atts.find? (fun a => a.attempt_no == round && a.status == "PENDING")).map
          (fun a => a.weight_kg)
    declaredWeight.bind (fun w => if w = 0 then none else some ⟨entry, w⟩)

/-- `getUpcomingOrder(groupId, liftId, round)` of the state machine,
applied to the rows `Flight.getGroupEntries(groupId)` returns. -/
def getUpcomingOrder (entries : List GroupEntry) (attempts : List AttemptRow)
    (maxes : List OpenerRow) (liftId : String) (round : Nat) : List QueueEntry :=
  stableSort upcomingLe
    (entries.filterMap (resolveEntry attempts maxes liftId round))

/-- The ordering the spec claims for the queue: declared weight
ascending, then bodyweight descending, then `start_ord` ascending. -/
def queueSpecOrder (a b : QueueEntry) : Prop :=
  a.declaredWeight < b.declaredWeight ∨
  (a.declaredWeight = b.declaredWeight ∧
    (b.entry.bodyweight_kg < a.entry.bodyweight_kg ∨
      (b.entry.bodyweight_kg = a.entry.bodyweight_kg ∧
        a.entry.start_ord ≤ b.entry.start_ord)))

/-! ### Attempt store (`src/backend/src/models/Attempt.js` over
`init_local_schema.sql`)

The `attempts` table enforces `CHECK (attempt_no BETWEEN 1 AND 4)`,
`CHECK (status IN ('PENDING','VALID','INVALID'))` and
`UNIQUE (reg_id, lift_id, attempt_no)`; a violated constraint makes the
statement throw.  `Attempt.updateWeight` and `Attempt.updateStatus` are
unconditional single-column UPDATEs. -/

def validStatuses : List String := ["PENDING", "VALID", "INVALID"]

/-- The rowid SQLite assigns to a fresh `attempts` row. -/
def nextAttemptId (db : List AttemptRow) : Nat :=
  (db.map (fun a => a.id)).foldr max 0 + 1

/-- `Attempt.create`, with the schema checks of the local database. -/
def attemptCreate (db : List AttemptRow) (regId : Nat) (liftId : String)
    (attemptNo : Nat) (weightKg : Rat) (status : String) :
    Except String (List AttemptRow × Nat) :=
  if ¬(1 ≤ attemptNo ∧ attemptNo ≤ 4) then
    .error "CHECK constraint failed: attempt_no"
  else if status ∉ validStatuses then
    .error "CHECK constraint failed: status"
  else if db.any (fun a =>
      a.reg_id == regId && a.lift_id == liftId && a.attempt_no == attemptNo) then
    .error "UNIQUE constraint failed: attempts"
  else
    .ok (db ++ [⟨nextAttemptId db, regId, liftId, attemptNo, weightKg, status⟩],
         nextAttemptId db)

/-- `Attempt.updateWeight`: `UPDATE attempts SET weight_kg = ? WHERE id = ?`,
returning the new table and the number of affected rows. -/
def attemptUpdateWeight (db : List AttemptRow) (id : Nat) (w : Rat) :
    List AttemptRow × Nat :=
  (db.map (fun a => if a.id == id then { a with weight_kg := w } else a),
   db.countP (fun a => a.id == id))

/-- `Attempt.updateStatus`: `UPDATE attempts SET status = ? WHERE id = ?`,
unconditional apart from the schema CHECK on the new status value. -/
def attemptUpdateStatus (db : List AttemptRow) (id : Nat) (st : String) :
    Except String (List AttemptRow × Nat) :=
  if st ∉ validStatuses then
    .error "CHECK constraint failed: status"
  else
    .ok (db.map (fun a => if a.id == id then { a with status := st } else a),
         db.countP (fun a => a.id == id))

/-- `stateMachine.declareWeight(regId, liftId, attemptNo, weightKg)`:
updates the weight of the existing attempt if one exists, otherwise
creates a new PENDING attempt with the declared weight. -/
def declareWeight (db : List AttemptRow) (regId : Nat) (liftId : String)
    (attemptNo : Nat) (weightKg : Rat) : Except String (List AttemptRow × Nat) :=
  let atts := findByRegistrationAndLift db regId liftId
  match atts.find? (fun a => a.attempt_no == attemptNo) with
  | some existingAttempt =>
    .ok ((attemptUpdateWeight db existingAttempt.id weightKg).1,
         existingAttempt.id)
  | none => attemptCreate db regId liftId attemptNo weightKg "PENDING"

/-- `validationService.finalizeAttempt(attemptId, result)`: persists the
outcome through `Attempt.updateStatus` and clears the ballot. -/
def finalizeAttempt (db : List AttemptRow) (votes : VoteState)
    (attemptId : Nat) (result : String) :
    Except String (List AttemptRow × VoteState) :=
  match attemptUpdateStatus db attemptId result with
  | .error e => .error e
  | .ok (db', _) => .ok (db', clearVotes votes attemptId)

/-- Concrete store for the C3 counterexample: attempt 2 of registration
1 on MU already finalized VALID at 95 kg. -/
def c3db : List AttemptRow := [⟨1, 1, "MU", 2, 95, "VALID"⟩]

/-- Concrete store for the C4 counterexample: attempt 1 of registration
1 on MU already finalized VALID. -/
def c4db : List AttemptRow := [⟨1, 1, "MU", 1, 90, "VALID"⟩]

/-! ### State machine NEXT (`stateMachine.js`, `src/unnamed/part_002`)

`next()` recomputes the queue for the current (group, lift, round);
when it is empty it either starts the next round (round < 3) or moves
to the next group; at the last group of the flight it reports
`Flight completed`.  The meet-type lift sequence is part of the data
model (`meets` → `meet_types` → `lifts_json`) but `next()` never reads
it. -/

/-- One row of the `groups` table. -/
structure Group where
  id : Nat
  flight_id : Nat
  ord : Nat
  deriving Repr, DecidableEq

/-- The `current_state` singleton row. -/
structure CurState where
  meet_id : Option Nat
  current_flight_id : Option Nat
  current_group_id : Option Nat
  current_reg_id : Option Nat
  current_lift_id : Option String
  current_round : Nat
  deriving Repr, DecidableEq

/-- The database as the state machine sees it.  `groups` is kept in
`ord` order (the `ORDER BY g.ord` of `findGroupsByFlight`), `groupEntries`
holds the `getGroupEntries` rows per group in `start_ord` order, and
`meetTypeLifts` is the meet-type lift sequence of the data model. -/
structure MeetDB where
  groups : List Group
  groupEntries : List (Nat × List GroupEntry)
  attempts : List AttemptRow
  maxes : List OpenerRow
  meetTypeLifts : List String
  state : CurState
  deriving Repr, DecidableEq

/-- `Flight.findGroupsByFlight`: the flight's groups in `ord` order. -/
def findGroupsByFlight (db : MeetDB) (flightId : Nat) : List Group :=
  db.groups.filter (fun g => g.flight_id == flightId)

/-- `Flight.getGroupEntries` rows for a group. -/
def getGroupEntries (db : MeetDB) (groupId : Nat) : List GroupEntry :=
  (mlookup db.groupEntries groupId).getD []

/-- `_getFirstAthleteForRound(entries, liftId, round)`: every entry gets
a declared weight (999999 when the opener or previous attempt weight is
missing or zero — the JS `|| 999999` on a falsy value), the list is
sorted with the same comparator, and the first element is returned. -/
def getFirstAthleteForRound (db : MeetDB) (entries : List GroupEntry)
    (liftId : String) (round : Nat) : Option GroupEntry :=
  let withW := entries.map (fun entry =>
    let declaredWeight : Rat :=
      if round == 1 then
        match getOpenerFor db.maxes entry.reg_id liftId with
        | none => 999999
        | some w => if w = 0 then 999999 else w
      else
        match ((findByRegistrationAndLift db.attempts entry.reg_id liftId).find?
            (fun a => a.attempt_no == round - 1)).map (fun a => a.weight_kg) with
        | none => 999999
        | some w => if w = 0 then 999999 else w
    (⟨entry, declaredWeight⟩ : QueueEntry))
  ((stableSort upcomingLe withW).head?).map (fun q => q.entry)

/-- Result of the `next()` command. -/
inductive NextOutcome where
  | advanced (s : CurState)
  | finished (s : CurState) (msg : Option String)
  | error (e : String)
  deriving Repr, DecidableEq

/-- `_startNextRound(state)`. -/
def startNextRound (db : MeetDB) (liftId : String) : NextOutcome :=
  let state := db.state
  let nextRound := state.current_round + 1
  let entries := match state.current_group_id with
    | none => []
    | some g => getGroupEntries db g
  let upcoming := getUpcomingOrder entries db.attempts db.maxes liftId nextRound
  match upcoming with
  | [] => .finished state none
  | first :: _ =>
    .advanced { state with
      current_reg_id := some first.entry.reg_id,
      current_round := nextRound }

/-- `_moveToNextGroup(state)`: at the last group (or an unknown group)
of the flight the JS returns `{ finished: true, message: 'Flight
completed' }`; it never consults the meet-type lift sequence.  (The
fallback `finished` branches after a successful index are unreachable:
a nonempty entry list always yields a first athlete.) -/
def moveToNextGroup (db : MeetDB) (flightId : Nat) (liftId : String) :
    NextOutcome :=
  let state := db.state
  let groups := findGroupsByFlight db flightId
  let currentIndex := match state.current_group_id with
    | none => none
    | some g => groups.findIdx? (fun gr => gr.id == g)
  match currentIndex with
  | none => .finished state (some "Flight completed")
  | some i =>
    if i = groups.length - 1 then .finished state (some "Flight completed")
    else
      match groups.drop (i + 1) with
      | [] => .finished state (some "Flight completed")
      | nextGroup :: _ =>
        let entries := getGroupEntries db nextGroup.id
        if entries = [] then .finished state (some "No athletes in next group")
        else
          match getFirstAthleteForRound db entries liftId 1 with
          | none => .finished state (some "No athletes in next group")
          | some firstAthlete =>
            .advanced { state with
              current_group_id := some nextGroup.id,
              current_reg_id := some firstAthlete.reg_id,
              current_round := 1 }

/-- `next()`: recompute the queue; advance to its head, else next round,
else next group. -/
def nextCommand (db : MeetDB) : NextOutcome :=
  match db.state.current_flight_id, db.state.current_lift_id with
  | some flightId, some liftId =>
    let state := db.state
    let entries := match state.current_group_id with
      | none => []
      | some g => getGroupEntries db g
    let upcoming :=
      getUpcomingOrder entries db.attempts db.maxes liftId state.current_round
    match upcoming with
    | nextAth :: _ =>
      .advanced { state with current_reg_id := some nextAth.entry.reg_id }
    | [] =>
      if state.current_round < 3 then startNextRound db liftId
      else moveToNextGroup db flightId liftId
  | _, _ => .error "State not initialized. Call initialize() first."

/-- Concrete database for C5: a meet-type with two lifts MU, PU; one
flight with one group, one athlete whose three MU attempts are all
finalized; the state sits at group 1, lift MU, round 3. -/
def c5db : MeetDB :=
  { groups := [⟨1, 1, 1⟩],
    groupEntries := [(1, [⟨1, 1, 75⟩])],
    attempts := [⟨1, 1, "MU", 1, 90, "VALID"⟩, ⟨2, 1, "MU", 2, 95, "VALID"⟩,
                 ⟨3, 1, "MU", 3, 100, "VALID"⟩],
    maxes := [⟨1, "MU", 90⟩],
    meetTypeLifts := ["MU", "PU"],
    state := { meet_id := some 1, current_flight_id := some 1,
               current_group_id := some 1, current_reg_id := some 1,
               current_lift_id := some "MU", current_round := 3 } }

/-! ### Ranking engine (`rankingService.js`, `src/unnamed/part_002`)

`calculateRankings(meetId, liftId)` walks the rows of
`Registration.findByMeet` — which arrive `ORDER BY a.last_name,
a.first_name` — computes totals, drops zero totals, groups by category
key and sorts each category by total descending then bodyweight
ascending with the stable `Array.prototype.sort`.  The RIS score, a
floating-point exponential not involved in claim C6, is omitted from
the embedding.  Each row carries the athlete's `start_ord` from the
group entries of the data model; `calculateRankings` never reads it. -/

/-- One row of `Registration.findByMeet` (athlete joined in), plus the
`start_ord` of the athlete's group entry, which the ranking code never
consults. -/
structure RegRow where
  id : Nat
  last_name : String
  first_name : String
  sex : String
  bodyweight_kg : Rat
  weight_cat_id : Option Nat
  age_cat_id : Option Nat
  start_ord : Nat
  deriving Repr, DecidableEq

/-- An intermediate ranking result: registration row plus its total. -/
abbrev RankEntry := RegRow × Rat

/-- A final ranking row. -/
structure RankedRow where
  reg : RegRow
  total : Rat
  placement : Nat
  category : String
  deriving Repr, DecidableEq

/-- `calculateTotal(regId, liftId)`: the maximum weight among VALID
attempts, 0 when there is none. -/
def calculateTotal (attempts : List AttemptRow) (regId : Nat)
    (liftId : String) : Rat :=
  let atts := findByRegistrationAndLift attempts regId liftId
  let validAttempts := atts.filter (fun a => a.status == "VALID")
  match validAttempts.map (fun a => a.weight_kg) with
  | [] => 0
  | w :: ws => ws.foldl max w

/-- The category key string built by `_groupByCategory`:
`sex_weightCat_ageCat` with OPEN for an absent category id. -/
def catKey (r : RegRow) : String :=
  r.sex ++ "_" ++
    (match r.weight_cat_id with
     | some n => toString n
     | none => "OPEN") ++ "_" ++
    (match r.age_cat_id with
     | some n => toString n
     | none => "OPEN")

/-- Insert into the bucket of `key` (JS object property update), or
append a new bucket (JS object insertion order). -/
def groupInsert {κ α : Type} [DecidableEq κ] :
    List (κ × List α) → κ → α → List (κ × List α)
  | [], key, x => [(key, [x])]
  | (k, xs) :: rest, key, x =>
    if k = key then (k, xs ++ [x]) :: rest
    else (k, xs) :: groupInsert rest key x

/-- `_groupByCategory`: buckets in first-appearance order, elements in
input order. -/
def groupByCategory (l : List RankEntry) : List (String × List RankEntry) :=
  l.foldl (fun acc r => groupInsert acc (catKey r.1) r) []

/-- The category comparator as the test `comparator(a, b) <= 0`:
total descending, then bodyweight ascending. -/
def rankLe (a b : RankEntry) : Bool :=
  if b.2 ≠ a.2 then b.2 - a.2 ≤ 0
  else a.1.bodyweight_kg - b.1.bodyweight_kg ≤ 0

/-- The `forEach((athlete, index) => ...)` placement assignment, with
1-based placements. -/
def assignPlacements (key : String) : Nat → List RankEntry → List RankedRow
  | _, [] => []
  | i, e :: es => ⟨e.1, e.2, i + 1, key⟩ :: assignPlacements key (i + 1) es

/-- `calculateRankings`, keeping the per-category structure: athletes
with a positive total, grouped by category, each category sorted and
given placements. -/
def calculateRankingsGrouped (regs : List RegRow) (attempts : List AttemptRow)
    (liftId : String) : List (String × List RankedRow) :=
  let results := regs.map (fun reg => (reg, calculateTotal attempts reg.id liftId))
  let validResults := results.filter (fun r => 0 < r.2)
  (groupByCategory validResults).map (fun kv =>
    (kv.1, assignPlacements kv.1 0 (stableSort rankLe kv.2)))

/-- `calculateRankings`: the flattened `rankedResults` array, categories
in first-appearance order. -/
def calculateRankings (regs : List RegRow) (attempts : List AttemptRow)
    (liftId : String) : List RankedRow :=
  ((calculateRankingsGrouped regs attempts liftId).map (fun kv => kv.2)).flatten

/-- The non-strict name order `ORDER BY last_name, first_name` of
`Registration.findByMeet`. -/
def nameLe (a b : RegRow) : Prop :=
  a.last_name < b.last_name ∨
    (a.last_name = b.last_name ∧ a.first_name ≤ b.first_name)

/-- The order the code actually produces within a category: total
descending, bodyweight ascending, then the input (name) order on full
ties. -/
def rankEntryOrder (a b : RankEntry) : Prop :=
  b.2 < a.2 ∨
    (a.2 = b.2 ∧
      (a.1.bodyweight_kg < b.1.bodyweight_kg ∨
        (a.1.bodyweight_kg = b.1.bodyweight_kg ∧ nameLe a.1 b.1)))

/-- `rankEntryOrder` transported to final ranking rows. -/
def rankCodeOrder (a b : RankedRow) : Prop :=
  b.total < a.total ∨
    (a.total = b.total ∧
      (a.reg.bodyweight_kg < b.reg.bodyweight_kg ∨
        (a.reg.bodyweight_kg = b.reg.bodyweight_kg ∧ nameLe a.reg b.reg)))

/-- The ordering claim C6 states for a category: total descending,
bodyweight ascending, then `start_ord` ascending. -/
def rankSpecOrder (a b : RankedRow) : Prop :=
  b.total < a.total ∨
    (a.total = b.total ∧
      (a.reg.bodyweight_kg < b.reg.bodyweight_kg ∨
        (a.reg.bodyweight_kg = b.reg.bodyweight_kg ∧
          a.reg.start_ord ≤ b.reg.start_ord)))

instance (a b : RegRow) : Decidable (nameLe a b) := by
  unfold nameLe; infer_instance

instance (a b : RankedRow) : Decidable (rankSpecOrder a b) := by
  unfold rankSpecOrder; infer_instance

instance (a b : RankedRow) : Decidable (rankCodeOrder a b) := by
  unfold rankCodeOrder nameLe; infer_instance

/-- Registrations for the C6 counterexample, in `findByMeet` name
order: Alpha has `start_ord` 2, Beta has `start_ord` 1; same (OPEN)
category, same bodyweight. -/
def c6r1 : RegRow := ⟨1, "Alpha", "A", "M", 80, none, none, 2⟩

def c6r2 : RegRow := ⟨2, "Beta", "B", "M", 80, none, none, 1⟩

def c6regs : List RegRow := [c6r1, c6r2]

/-- Attempts for the C6 counterexample: both athletes lifted 100 kg
VALID, so the totals tie as well. -/
def c6attempts : List AttemptRow :=
  [⟨1, 1, "MU", 1, 100, "VALID"⟩, ⟨2, 2, "MU", 1, 100, "VALID"⟩]

/-! ### Sync resolver (`src/backend/src/database/sync.js` over
`init_remote_schema.sql`)

`syncToRemote` runs its remote statements one by one in autocommit
mode — the source opens no transaction — so a failure leaves the
statements already executed in place; the embedding therefore returns
the remote state reached so far together with the error, instead of an
`Except`.  The remote `public_records` table declares
`bodyweight_kg DECIMAL NOT NULL` ("peso dell'atleta quando ha stabilito
il record"), but the record upsert of `checkAndUpdateRecords` never
mentions that column: the `ON CONFLICT DO UPDATE` path leaves the old
bodyweight in place and a fresh `INSERT` violates the NOT NULL
constraint.  `uploadResults` groups by the JS string key
`wcid + "-" + acid`; for natural-number ids that key is in bijection
with the pair, which the embedding uses directly. -/

/-- A row of the remote `athletes_history` table. -/
structure AthleteHistRow where
  id : Nat
  cf : String
  first_name : String
  last_name : String
  sex : String
  birth_date : String
  deriving Repr, DecidableEq

/-- A row of the remote `public_meets` table. -/
structure RemoteMeetRow where
  id : Nat
  federation_id : Nat
  meet_code : String
  name : String
  date : String
  level : String
  regulation_code : String
  lifts_json : String
  deriving Repr, DecidableEq

/-- A row of the remote `public_results` table. -/
structure RemoteResultRow where
  meet_id : Nat
  athlete_id : Option Nat
  weight_cat_id : Nat
  age_cat_id : Nat
  best_mu : Option Rat
  best_pu : Option Rat
  best_dip : Option Rat
  best_sq : Option Rat
  best_mp : Option Rat
  total_kg : Rat
  points : Rat
  final_placing : Nat
  deriving Repr, DecidableEq

/-- A row of the remote `public_records` table.  `bodyweight_kg` is
`NOT NULL` in the schema; it is `Option` here so that the embedding can
state that the sync never writes it. -/
structure RemoteRecordRow where
  weight_cat_id : Nat
  age_cat_id : Nat
  lift : String
  record_kg : Rat
  bodyweight_kg : Option Rat
  athlete_cf : Option String
  meet_code : Option String
  set_date : Option String
  deriving Repr, DecidableEq

/-- The remote archive.  `federations` holds the federation ids in id
order (`ORDER BY id` of `createRemoteMeet`); the `_std` category tables
map id to name. -/
structure RemoteDB where
  federations : List Nat
  athletes_history : List AthleteHistRow
  public_meets : List RemoteMeetRow
  weight_categories_std : List (Nat × String)
  age_categories_std : List (Nat × String)
  public_results : List RemoteResultRow
  public_records : List RemoteRecordRow
  deriving Repr, DecidableEq

/-- A row of the local `meets` table, the fields sync reads. -/
structure LocalMeetRow where
  id : Nat
  meet_code : String
  name : String
  start_date : String
  level : String
  regulation_code : String
  lifts_json : String
  deriving Repr, DecidableEq

/-- A row of the local `athletes` table. -/
structure LocalAthleteRow where
  id : Nat
  cf : String
  first_name : String
  last_name : String
  sex : String
  birth_date : String
  deriving Repr, DecidableEq

/-- A row of the local `registrations` table, the fields sync reads. -/
structure SyncRegRow where
  id : Nat
  meet_id : Nat
  athlete_id : Nat
  bodyweight_kg : Rat
  weight_cat_id : Option Nat
  age_cat_id : Option Nat
  deriving Repr, DecidableEq

/-- The local database as the sync resolver reads it. -/
structure LocalDB where
  meets : List LocalMeetRow
  athletes : List LocalAthleteRow
  registrations : List SyncRegRow
  attempts : List AttemptRow
  weight_categories : List (Nat × String)
  age_categories : List (Nat × String)
  deriving Repr, DecidableEq

/-- One row of the `getResults` query: registration joined with its
athlete, plus `MAX(weight_kg)` of the VALID attempts per lift (NULL
when there is none). -/
structure ResultQueryRow where
  id : Nat
  cf : String
  first_name : String
  last_name : String
  sex : String
  bodyweight_kg : Rat
  weight_cat_id : Option Nat
  age_cat_id : Option Nat
  best_mu : Option Rat
  best_pu : Option Rat
  best_dip : Option Rat
  best_sq : Option Rat
  best_mp : Option Rat
  deriving Repr, DecidableEq

/-- `MAX(weight_kg)` over the VALID attempts of a registration and
lift; `none` embeds SQL NULL. -/
def bestLift (l : LocalDB) (regId : Nat) (lift : String) : Option Rat :=
  match (l.attempts.filter (fun a =>
      a.reg_id == regId && a.lift_id == lift && a.status == "VALID")).map
      (fun a => a.weight_kg) with
  | [] => none
  | w :: ws => some (ws.foldl max w)

/-- `getResults(db, meetId)`. -/
def getResults (l : LocalDB) (meetId : Nat) : List ResultQueryRow :=
  (l.registrations.filter (fun rg => rg.meet_id == meetId)).filterMap
    (fun rg =>
      (l.athletes.find? (fun a => a.id == rg.athlete_id)).map (fun a =>
        ⟨rg.id, a.cf, a.first_name, a.last_name, a.sex, rg.bodyweight_kg,
         rg.weight_cat_id, rg.age_cat_id,
         bestLift l rg.id "MU", bestLift l rg.id "PU", bestLift l rg.id "DIP",
         bestLift l rg.id "SQ", bestLift l rg.id "MP"⟩))

/-- The `INSERT ... ON CONFLICT (cf) DO UPDATE` of `syncAthletes`. -/
def upsertAthlete (r : RemoteDB) (a : LocalAthleteRow) : RemoteDB :=
  if r.athletes_history.any (fun h => h.cf == a.cf) then
    { r with athletes_history := r.athletes_history.map (fun h =>
        if h.cf == a.cf then
          { h with first_name := a.first_name, last_name := a.last_name,
                   sex := a.sex, birth_date := a.birth_date }
        else h) }
  else
    { r with athletes_history := r.athletes_history ++
        [⟨(r.athletes_history.map (fun h => h.id)).foldr max 0 + 1,
          a.cf, a.first_name, a.last_name, a.sex, a.birth_date⟩] }

/-- `syncAthletes`: upserts every athlete registered in the meet (the
SQL `DISTINCT` is moot since `(meet_id, athlete_id)` is unique). -/
def syncAthletes (l : LocalDB) (r : RemoteDB) (meetId : Nat) : RemoteDB :=
  ((l.registrations.filter (fun rg => rg.meet_id == meetId)).filterMap
    (fun rg => l.athletes.find? (fun a => a.id == rg.athlete_id))).foldl
      upsertAthlete r

/-- `createRemoteMeet`: needs a federation; upserts the meet by
`meet_code` and returns the remote meet id. -/
def createRemoteMeet (r : RemoteDB) (meet : LocalMeetRow) :
    Except String (RemoteDB × Nat) :=
  match r.federations with
  | [] => .error
      "No federation found in remote database. Please run: node src/database/remote/seed.js"
  | fid :: _ =>
    match r.public_meets.find? (fun m => m.meet_code == meet.meet_code) with
    | some m =>
      .ok ({ r with public_meets := r.public_meets.map (fun mm =>
              if mm.meet_code == meet.meet_code then
                { mm with name := meet.name, date := meet.start_date,
                          level := meet.level,
                          regulation_code := meet.regulation_code,
                          lifts_json := meet.lifts_json }
              else mm) }, m.id)
    | none =>
      let newId := (r.public_meets.map (fun m => m.id)).foldr max 0 + 1
      .ok ({ r with public_meets := r.public_meets ++
              [⟨newId, fid, meet.meet_code, meet.name, meet.start_date,
                meet.level, meet.regulation_code, meet.lifts_json⟩] }, newId)

/-- The first pass of `uploadResults`: category ids mapped to remote by
name (rows with an unmapped category are skipped with a warning),
athlete id resolved by CF, total and points computed. -/
structure MappedResult where
  res : ResultQueryRow
  wcid : Nat
  acid : Nat
  athleteId : Option Nat
  total : Rat
  points : Rat
  deriving Repr, DecidableEq

def mappedResults (r : RemoteDB) (l : LocalDB) (results : List ResultQueryRow) :
    List MappedResult :=
  results.filterMap (fun res =>
    let wc : Option Nat :=
      (res.weight_cat_id.bind (fun i =>
        (l.weight_categories.find? (fun c => c.1 == i)).map (fun c => c.2))).bind
          (fun n => (r.weight_categories_std.find? (fun c => c.2 == n)).map
            (fun c => c.1))
    let ac : Option Nat :=
      (res.age_cat_id.bind (fun i =>
        (l.age_categories.find? (fun c => c.1 == i)).map (fun c => c.2))).bind
          (fun n => (r.age_categories_std.find? (fun c => c.2 == n)).map
            (fun c => c.1))
    match wc, ac with
    | some wcid, some acid =>
      let athleteId := (r.athletes_history.find? (fun h => h.cf == res.cf)).map
        (fun h => h.id)
      let total := res.best_mu.getD 0 + res.best_pu.getD 0 + res.best_dip.getD 0 +
        res.best_sq.getD 0 + res.best_mp.getD 0
      some ⟨res, wcid, acid, athleteId, total, total⟩
    | _, _ => none)

/-- The `sort((a, b) => b.points - a.points)` comparator as
`comparator(a, b) <= 0`. -/
def pointsLe (a b : MappedResult) : Bool :=
  b.points - a.points ≤ 0

/-- `forEach((r, index) => r.final_placing = index + 1)`: pairs each
mapped result's registration id with its 1-based placing. -/
def assignPlacing : Nat → List MappedResult → List (Nat × Nat)
  | _, [] => []
  | i, m :: ms => (m.res.id, i + 1) :: assignPlacing (i + 1) ms

/-- `uploadResults`: placements per category (points descending, stable)
and one `INSERT` per mapped result, in first-pass order. -/
def uploadResults (r : RemoteDB) (remoteMeetId : Nat)
    (results : List ResultQueryRow) (l : LocalDB) : RemoteDB :=
  let mapped := mappedResults r l results
  let grouped := mapped.foldl (fun acc m => groupInsert acc (m.wcid, m.acid) m) []
  let placings := grouped.foldl
    (fun acc kv => acc ++ assignPlacing 0 (stableSort pointsLe kv.2)) []
  let rows := mapped.map (fun m =>
    (⟨remoteMeetId, m.athleteId, m.wcid, m.acid,
      m.res.best_mu, m.res.best_pu, m.res.best_dip, m.res.best_sq, m.res.best_mp,
      m.total, m.points, (mlookup placings m.res.id).getD 0⟩ : RemoteResultRow))
  { r with public_results := r.public_results ++ rows }

/-- The record upsert of `checkAndUpdateRecords` for one lift of one
result.  With no current record the `INSERT` omits the NOT NULL column
`bodyweight_kg` and the statement throws; with a current record the
`ON CONFLICT DO UPDATE` fires only on a strictly greater weight and
updates `record_kg`, `athlete_cf`, `meet_code` and `set_date` — never
`bodyweight_kg`. -/
def recordsStep (r : RemoteDB) (wcid acid : Nat) (liftName : String) (w : Rat)
    (cf meetCode today : String) : Except String RemoteDB :=
  match r.public_records.find? (fun rec =>
      rec.weight_cat_id == wcid && rec.age_cat_id == acid &&
      rec.lift == liftName) with
  | none =>
    .error "null value in column bodyweight_kg of public_records violates not-null constraint"
  | some cur =>
    if cur.record_kg < w then
      .ok { r with public_records := r.public_records.map (fun rec =>
        if rec.weight_cat_id == wcid && rec.age_cat_id == acid &&
            rec.lift == liftName then
          { rec with record_kg := w, athlete_cf := some cf,
                     meet_code := some meetCode, set_date := some today }
        else rec) }
    else .ok r

/-- The inner lift loop of `checkAndUpdateRecords`: `if (!lift.weight)
continue` skips NULL and zero bests; a throw aborts the remaining
iterations but keeps earlier writes. -/
def processLifts (r : RemoteDB) (wcid acid : Nat) (cf meetCode today : String) :
    List (String × Option Rat) → RemoteDB × Option String
  | [] => (r, none)
  | (liftName, w?) :: rest =>
    match w? with
    | none => processLifts r wcid acid cf meetCode today rest
    | some w =>
      if w = 0 then processLifts r wcid acid cf meetCode today rest
      else
        match recordsStep r wcid acid liftName w cf meetCode today with
        | .error e => (r, some e)
        | .ok r' => processLifts r' wcid acid cf meetCode today rest

/-- The outer result loop of `checkAndUpdateRecords`: category names
resolved as in `uploadResults`, unmapped categories skipped. -/
def processResults (l : LocalDB) (meetCode today : String) :
    RemoteDB → List ResultQueryRow → RemoteDB × Option String
  | r, [] => (r, none)
  | r, res :: rest =>
    let wc : Option Nat :=
      (res.weight_cat_id.bind (fun i =>
        (l.weight_categories.find? (fun c => c.1 == i)).map (fun c => c.2))).bind
          (fun n => (r.weight_categories_std.find? (fun c => c.2 == n)).map
            (fun c => c.1))
    let ac : Option Nat :=
      (res.age_cat_id.bind (fun i =>
        (l.age_categories.find? (fun c => c.1 == i)).map (fun c => c.2))).bind
          (fun n => (r.age_categories_std.find? (fun c => c.2 == n)).map
            (fun c => c.1))
    match wc, ac with
    | some wcid, some acid =>
      let lifts := [("MU", res.best_mu), ("PU", res.best_pu),
                    ("DIP", res.best_dip), ("SQ", res.best_sq),
                    ("MP", res.best_mp)]
      match processLifts r wcid acid res.cf meetCode today lifts with
      | (r', none) => processResults l meetCode today r' rest
      | (r', some e) => (r', some e)
    | _, _ => processResults l meetCode today r rest

/-- `checkAndUpdateRecords` (its return value, a list of promoted
records, is only logged by the CLI and omitted here). -/
def checkAndUpdateRecords (l : LocalDB) (r : RemoteDB)
    (results : List ResultQueryRow) (meetCode today : String) :
    RemoteDB × Option String :=
  processResults l meetCode today r results

/-- `syncToRemote(meetCode)`: the steps in source order, each remote
statement committing immediately; the pair carries the remote state
reached when the run stops. -/
def syncToRemote (l : LocalDB) (meetCode today : String) (r : RemoteDB) :
    RemoteDB × Option String :=
  match l.meets.find? (fun m => m.meet_code == meetCode) with
  | none => (r, some ("Meet with code " ++ meetCode ++ " not found"))
  | some meet =>
    let results := getResults l meet.id
    let r1 := syncAthletes l r meet.id
    match createRemoteMeet r1 meet with
    | .error e => (r1, some e)
    | .ok (r2, remoteMeetId) =>
      let r3 := uploadResults r2 remoteMeetId results l
      checkAndUpdateRecords l r3 results meetCode today

/-- C7: a local meet with one registered athlete. -/
def c7local : LocalDB :=
  { meets := [⟨1, "M-1", "Meet One", "2025-05-01", "REGIONALE", "WL_COEFF_2025",
      "[MU]"⟩],
    athletes := [⟨1, "CF1", "Ivan", "Rossi", "M", "1990-01-01"⟩],
    registrations := [⟨1, 1, 1, 75, some 1, some 1⟩],
    attempts := [],
    weight_categories := [(1, "M75")],
    age_categories := [(1, "OPEN")] }

/-- C7: a remote archive with no federation seeded, so
`createRemoteMeet` throws after the athletes were already written. -/
def c7remote : RemoteDB :=
  { federations := [],
    athletes_history := [],
    public_meets := [],
    weight_categories_std := [(11, "M75")],
    age_categories_std := [(12, "OPEN")],
    public_results := [],
    public_records := [] }

/-- C8: a local meet with one athlete and no valid attempts (so the
record phase writes nothing and both runs succeed). -/
def c8local : LocalDB :=
  { meets := [⟨1, "M-2", "Meet Two", "2025-05-02", "REGIONALE", "WL_COEFF_2025",
      "[MU]"⟩],
    athletes := [⟨1, "CF2", "Fabio", "Bianchi", "M", "1991-01-01"⟩],
    registrations := [⟨1, 1, 1, 80, some 1, some 1⟩],
    attempts := [],
    weight_categories := [(1, "M80")],
    age_categories := [(1, "OPEN")] }

/-- C8: a seeded, initially empty remote archive. -/
def c8remote : RemoteDB :=
  { federations := [7],
    athletes_history := [],
    public_meets := [],
    weight_categories_std := [(11, "M80")],
    age_categories_std := [(12, "OPEN")],
    public_results := [],
    public_records := [] }

/-- C8: the remote archive after the first sync of `M-2`. -/
def c8run1 : RemoteDB := (syncToRemote c8local "M-2" "2025-06-01" c8remote).1

/-- C8: the local meet row of `M-2`. -/
def c8meet : LocalMeetRow :=
  ⟨1, "M-2", "Meet Two", "2025-05-02", "REGIONALE", "WL_COEFF_2025", "[MU]"⟩

/-- C8: the remote state after the second run's meet upsert. -/
def c8r2 : RemoteDB :=
  match createRemoteMeet (syncAthletes c8local c8run1 1) c8meet with
  | .ok (r2, _) => r2
  | .error _ => c8run1

/-- C9: a local meet where athlete F1 (bodyweight 80) lifted 100 kg
VALID on PU and 95 kg VALID on MU. -/
def c9local : LocalDB :=
  { meets := [⟨1, "M-9", "Meet Nine", "2025-07-01", "NAZIONALE", "WL_COEFF_2025",
      "[PU]"⟩],
    athletes := [⟨1, "F1", "Fabio", "Verdi", "M", "1992-01-01"⟩],
    registrations := [⟨1, 1, 1, 80, some 1, some 1⟩],
    attempts := [⟨1, 1, "PU", 1, 100, "VALID"⟩, ⟨2, 1, "MU", 1, 95, "VALID"⟩],
    weight_categories := [(1, "M80")],
    age_categories := [(1, "OPEN")] }

/-- C9: the remote archive holds a 95 kg PU record set at bodyweight 70
and a 95 kg MU record (which the athlete only ties). -/
def c9remote : RemoteDB :=
  { federations := [7],
    athletes_history := [],
    public_meets := [],
    weight_categories_std := [(11, "M80")],
    age_categories_std := [(12, "OPEN")],
    public_results := [],
    public_records :=
      [⟨11, 12, "PU", 95, some 70, some "OLD", some "M-OLD", some "2024-01-01"⟩,
       ⟨11, 12, "MU", 95, some 72, some "OLD2", some "M-OLD", some "2024-01-01"⟩] }

/-! #### Vote tally lemmas -/

theorem mlookup_mset_self {α β : Type} [DecidableEq α]
    (l : List (α × β)) (k : α) (v : β) : mlookup (mset l k v) k = some v := by
  induction l with
  | nil => simp [mset, mlookup]
  | cons hd tl ih =>
    obtain ⟨k', v'⟩ := hd
    by_cases h : k' = k
    · simp [mset, h, mlookup]
    · simp [mset, h, mlookup, ih]

theorem mset_keys {α β : Type} [DecidableEq α]
    (l : List (α × β)) (k : α) (v : β) :
    (mset l k v).map Prod.fst = l.map Prod.fst ∨
    (mset l k v).map Prod.fst = l.map Prod.fst ++ [k] := by
  induction l with
  | nil => right; simp [mset]
  | cons hd tl ih =>
    obtain ⟨k', v'⟩ := hd
    by_cases h : k' = k
    · left; simp [mset, h]
    · rcases ih with ih | ih
      · left; simp [mset, h, ih]
      · right; simp [mset, h, ih]

theorem mem_mset {α β : Type} [DecidableEq α]
    (l : List (α × β)) (k : α) (v : β) (e : α × β)
    (he : e ∈ mset l k v) : e ∈ l ∨ e = (k, v) := by
  induction l with
  | nil => simp [mset] at he; right; exact he
  | cons hd tl ih =>
    obtain ⟨k', v'⟩ := hd
    by_cases h : k' = k
    · simp [mset, h] at he
      rcases he with he | he
      · right; exact he
      · left; exact List.mem_cons_of_mem _ he
    · simp [mset, h] at he
      rcases he with he | he
      · left; simp [he]
      · rcases ih he with h1 | h1
        · left; exact List.mem_cons_of_mem _ h1
        · right; exact h1

theorem registerVote_ok_eval (s : VoteState) (a : Nat) (role vote : String)
    (hr : role ∈ validRoles) (hv : vote ∈ validVotes) :
    registerVote s a role vote =
      .ok (mset s a (mset ((mlookup s a).getD []) role vote),
           ⟨(mset ((mlookup s a).getD []) role vote).length == 3,
            if (mset ((mlookup s a).getD []) role vote).length == 3 then
              some (calculateResult (mset ((mlookup s a).getD []) role vote))
            else none,
            mset ((mlookup s a).getD []) role vote⟩) := by
  simp [registerVote, hr, hv]

theorem mlookup_mem {α β : Type} [DecidableEq α]
    (l : List (α × β)) (k : α) (b : β) (h : mlookup l k = some b) : (k, b) ∈ l := by
  induction l with
  | nil => simp [mlookup] at h
  | cons hd tl ih =>
    obtain ⟨k', v'⟩ := hd
    by_cases hk : k' = k
    · subst hk
      simp [mlookup] at h
      simp [h]
    · simp [mlookup, hk] at h
      exact List.mem_cons_of_mem _ (ih h)

theorem mem_mdelete {α β : Type} [DecidableEq α]
    (l : List (α × β)) (k : α) (e : α × β) (he : e ∈ mdelete l k) : e ∈ l := by
  induction l with
  | nil => simp [mdelete] at he
  | cons hd tl ih =>
    obtain ⟨k', v'⟩ := hd
    by_cases hk : k' = k
    · simp [mdelete, hk] at he
      exact List.mem_cons_of_mem _ he
    · simp [mdelete, hk] at he
      rcases he with he | he
      · simp [he]
      · exact List.mem_cons_of_mem _ (ih he)

theorem BallotOK_length_le (b : Ballot) (h : BallotOK b) : b.length ≤ 3 := by
  obtain ⟨hnd, hmem⟩ := h
  have hsub : (b.map Prod.fst) ⊆ validRoles := by
    intro x hx
    obtain ⟨kv, hkv, rfl⟩ := List.mem_map.mp hx
    exact (hmem kv hkv).1
  have h1 : (b.map Prod.fst).toFinset.card = (b.map Prod.fst).length :=
    List.toFinset_card_of_nodup hnd
  have h2 : (b.map Prod.fst).toFinset ⊆ validRoles.toFinset := by
    intro x hx
    exact List.mem_toFinset.mpr (hsub (List.mem_toFinset.mp hx))
  have h3 := Finset.card_le_card h2
  have h4 := validRoles.toFinset_card_le
  have h5 : b.length = (b.map Prod.fst).length := (List.length_map b Prod.fst).symm
  have h6 : validRoles.length = 3 := rfl
  omega

theorem BallotOK_mset (b : Ballot) (r v : String)
    (h : BallotOK b) (hr : r ∈ validRoles) (hv : v ∈ validVotes) :
    BallotOK (mset b r v) := by
  induction b with
  | nil =>
    refine ⟨by simp [mset], ?_⟩
    intro kv hkv
    simp [mset] at hkv
    simp [hkv, hr, hv]
  | cons hd tl ih =>
    obtain ⟨k', v'⟩ := hd
    obtain ⟨hnd, hmem⟩ := h
    rw [List.map_cons] at hnd
    have hknotin : k' ∉ tl.map Prod.fst := (List.nodup_cons.mp hnd).1
    have hndtl : (tl.map Prod.fst).Nodup := (List.nodup_cons.mp hnd).2
    have htl : BallotOK tl :=
      ⟨hndtl, fun kv hkv => hmem kv (List.mem_cons_of_mem _ hkv)⟩
    by_cases hk : k' = r
    · subst hk
      refine ⟨by simpa [mset] using hnd, ?_⟩
      intro kv hkv
      simp [mset] at hkv
      rcases hkv with rfl | hkv
      · exact ⟨hr, hv⟩
      · exact hmem kv (List.mem_cons_of_mem _ hkv)
    · obtain ⟨ind, imem⟩ := ih htl
      have hmseteq : mset ((k', v') :: tl) r v = (k', v') :: mset tl r v := by
        simp [mset, hk]
      refine ⟨?_, ?_⟩
      · rw [hmseteq, List.map_cons]
        refine List.nodup_cons.mpr ⟨?_, ind⟩
        intro hmem'
        obtain ⟨p, hp, hfst⟩ := List.mem_map.mp hmem'
        rcases mem_mset tl r v p hp with hin | rfl
        · have hf : p.1 = k' := hfst
          exact hknotin (hf ▸ List.mem_map_of_mem Prod.fst hin)
        · have hf : r = k' := hfst
          exact hk hf.symm
      · intro kv hkv
        rw [hmseteq] at hkv
        rcases List.mem_cons.mp hkv with rfl | hkv
        · exact hmem (k', v') (by simp)
        · exact imem kv hkv

theorem VoteStateOK_applyOp (s : VoteState) (op : VoteOp)
    (h : VoteStateOK s) : VoteStateOK (applyOp s op) := by
  cases op with
  | reg a r v =>
    by_cases hr : r ∈ validRoles
    · by_cases hv : v ∈ validVotes
      · rw [applyOp, registerVote_ok_eval s a r v hr hv]
        intro e he
        rcases mem_mset s a (mset ((mlookup s a).getD []) r v) e he with hin | rfl
        · exact h e hin
        · have hb : BallotOK ((mlookup s a).getD []) := by
            cases hl : mlookup s a with
            | none => exact ⟨by simp, by simp⟩
            | some b =>
              simpa [hl] using h (a, b) (mlookup_mem s a b hl)
          exact BallotOK_mset _ r v hb hr hv
      · simp only [applyOp]
        rw [show registerVote s a r v = .error ("Invalid vote: " ++ v) from by
          simp [registerVote, hr, hv]]
        exact h
    · simp only [applyOp]
      rw [show registerVote s a r v = .error ("Invalid judge role: " ++ r) from by
        simp [registerVote, hr]]
      exact h
  | clear a =>
    intro e he
    exact h e (mem_mdelete s a e he)
  | clearAll =>
    intro e he
    simp [applyOp, clearAllVotes] at he

theorem VoteStateOK_foldl (ops : List VoteOp) (s : VoteState)
    (h : VoteStateOK s) : VoteStateOK (ops.foldl applyOp s) := by
  induction ops generalizing s with
  | nil => simpa using h
  | cons op rest ih =>
    simpa using ih (applyOp s op) (VoteStateOK_applyOp s op h)

theorem VoteStateOK_runOps (ops : List VoteOp) : VoteStateOK (runOps ops) :=
  VoteStateOK_foldl ops [] (by intro e he; simp at he)

/-! #### Claim theorems for the vote tally -/

/-- C1: when the three roles HEAD, LEFT, RIGHT each cast a vote in
{WHITE, RED} on a fresh ballot, `registerVote` reports the ballot
complete exactly on the third distinct role, and the computed outcome is
defined and equals the majority: VALID when at least two votes are
WHITE, INVALID when at least two are RED. -/
theorem registerVote_majority_C1
    (s : VoteState) (a : Nat) (x y z : String)
    (hs : mlookup s a = none)
    (hx : x ∈ validVotes) (hy : y ∈ validVotes) (hz : z ∈ validVotes) :
    ∃ s1 o1 s2 o2 s3 o3,
      registerVote s a "HEAD" x = .ok (s1, o1) ∧
      registerVote s1 a "LEFT" y = .ok (s2, o2) ∧
      registerVote s2 a "RIGHT" z = .ok (s3, o3) ∧
      o1.isComplete = false ∧ o2.isComplete = false ∧ o3.isComplete = true ∧
      o3.result =
        some (if 2 ≤ [x, y, z].countP (fun v => v = "WHITE") then "VALID"
              else "INVALID") ∧
      (o3.result = some "INVALID" ↔ 2 ≤ [x, y, z].countP (fun v => v = "RED")) := by
  have hH : ("HEAD" : String) ∈ validRoles := by decide
  have hL : ("LEFT" : String) ∈ validRoles := by decide
  have hR : ("RIGHT" : String) ∈ validRoles := by decide
  have e1 := registerVote_ok_eval s a "HEAD" x hH hx
  rw [hs] at e1
  simp only [Option.getD, mset, if_neg, List.length_cons, List.length_nil] at e1
  have l1 : mlookup (mset s a [("HEAD", x)]) a = some [("HEAD", x)] :=
    mlookup_mset_self s a _
  have e2 := registerVote_ok_eval (mset s a [("HEAD", x)]) a "LEFT" y hL hy
  rw [l1] at e2
  simp only [Option.getD, mset, List.length_cons, List.length_nil,
    show (("HEAD" : String) = "LEFT") = False from by simp, if_false] at e2
  have l2 : mlookup (mset (mset s a [("HEAD", x)]) a
      [("HEAD", x), ("LEFT", y)]) a = some [("HEAD", x), ("LEFT", y)] :=
    mlookup_mset_self _ a _
  have e3 := registerVote_ok_eval
    (mset (mset s a [("HEAD", x)]) a [("HEAD", x), ("LEFT", y)]) a "RIGHT" z hR hz
  rw [l2] at e3
  simp only [Option.getD, mset, List.length_cons, List.length_nil,
    show (("HEAD" : String) = "RIGHT") = False from by simp,
    show (("LEFT" : String) = "RIGHT") = False from by simp, if_false] at e3
  refine ⟨_, _, _, _, _, _, e1, e2, e3, by norm_num, by norm_num, by norm_num, ?_, ?_⟩
  · simp [validVotes] at hx hy hz
    rcases hx with rfl | rfl <;> rcases hy with rfl | rfl <;>
      rcases hz with rfl | rfl <;> decide
  · simp [validVotes] at hx hy hz
    rcases hx with rfl | rfl <;> rcases hy with rfl | rfl <;>
      rcases hz with rfl | rfl <;> decide

/-- Witness for C1: ballot 42, votes WHITE, WHITE, RED. -/
theorem registerVote_majority_C1_witness :
    mlookup ([] : VoteState) 42 = none ∧
    ∃ s1 o1 s2 o2 s3 o3,
      registerVote [] 42 "HEAD" "WHITE" = .ok (s1, o1) ∧
      registerVote s1 42 "LEFT" "WHITE" = .ok (s2, o2) ∧
      registerVote s2 42 "RIGHT" "RED" = .ok (s3, o3) ∧
      o1.isComplete = false ∧ o2.isComplete = false ∧ o3.isComplete = true ∧
      o3.result =
        some (if 2 ≤ ["WHITE", "WHITE", "RED"].countP (fun v => v = "WHITE")
              then "VALID" else "INVALID") ∧
      (o3.result = some "INVALID" ↔
        2 ≤ ["WHITE", "WHITE", "RED"].countP (fun v => v = "RED")) :=
  ⟨rfl, registerVote_majority_C1 [] 42 "WHITE" "WHITE" "RED" rfl
    (by decide) (by decide) (by decide)⟩

/-- C10: after any sequence of `registerVote`, `clearVotes` and
`clearAllVotes` calls from the empty store, every stored ballot maps
pairwise-distinct keys drawn from {HEAD, LEFT, RIGHT} to values in
{WHITE, RED}, so every reported vote count is at most 3; and a
`registerVote` with an invalid role or vote throws without touching the
store. -/
theorem voteState_invariant_C10 :
    (∀ ops : List VoteOp, VoteStateOK (runOps ops) ∧
      ∀ a, getVoteCount (runOps ops) a ≤ 3) ∧
    (∀ (s : VoteState) (a : Nat) (r v : String), r ∉ validRoles →
      registerVote s a r v = .error ("Invalid judge role: " ++ r) ∧
      applyOp s (.reg a r v) = s) ∧
    (∀ (s : VoteState) (a : Nat) (r v : String), r ∈ validRoles → v ∉ validVotes →
      registerVote s a r v = .error ("Invalid vote: " ++ v) ∧
      applyOp s (.reg a r v) = s) := by
  refine ⟨?_, ?_, ?_⟩
  · intro ops
    refine ⟨VoteStateOK_runOps ops, ?_⟩
    intro a
    rw [getVoteCount]
    cases hl : mlookup (runOps ops) a with
    | none => simp
    | some b =>
      have hb : BallotOK b := by
        simpa using VoteStateOK_runOps ops (a, b) (mlookup_mem _ a b hl)
      simpa using BallotOK_length_le b hb
  · intro s a r v hr
    have he : registerVote s a r v = .error ("Invalid judge role: " ++ r) := by
      simp [registerVote, hr]
    refine ⟨he, ?_⟩
    simp only [applyOp]
    rw [he]
  · intro s a r v hr hv
    have he : registerVote s a r v = .error ("Invalid vote: " ++ v) := by
      simp [registerVote, hr, hv]
    refine ⟨he, ?_⟩
    simp only [applyOp]
    rw [he]

/-! #### Stable sort lemmas -/

theorem mem_stableInsert {α : Type} (le : α → α → Bool) (x : α) (l : List α)
    (y : α) (hy : y ∈ stableInsert le x l) : y = x ∨ y ∈ l := by
  induction l with
  | nil =>
    simp [stableInsert] at hy
    left; exact hy
  | cons z t ih =>
    rw [stableInsert] at hy
    by_cases hle : le x z
    · rw [if_pos hle] at hy
      rcases List.mem_cons.mp hy with rfl | hy
      · left; rfl
      · right; exact hy
    · rw [if_neg hle] at hy
      rcases List.mem_cons.mp hy with rfl | hy
      · right; simp
      · rcases ih hy with h | h
        · left; exact h
        · right; exact List.mem_cons_of_mem _ h

theorem mem_stableSort {α : Type} (le : α → α → Bool) (l : List α)
    (y : α) (hy : y ∈ stableSort le l) : y ∈ l := by
  induction l with
  | nil => simp [stableSort] at hy
  | cons x t ih =>
    have heq : stableSort le (x :: t) = stableInsert le x (stableSort le t) := rfl
    rw [heq] at hy
    rcases mem_stableInsert le x _ y hy with rfl | hy
    · simp
    · exact List.mem_cons_of_mem _ (ih hy)

theorem stableInsert_pairwise {α : Type} (le : α → α → Bool) (R : α → α → Prop)
    (htrans : Transitive R) (x : α) (acc : List α)
    (hacc : acc.Pairwise R)
    (hx : ∀ y ∈ acc, (le x y = true → R x y) ∧ (le x y = false → R y x)) :
    (stableInsert le x acc).Pairwise R := by
  induction acc with
  | nil => simp [stableInsert]
  | cons y l ih =>
    rw [stableInsert]
    obtain ⟨hyl, hl⟩ := List.pairwise_cons.mp hacc
    by_cases hle : le x y
    · rw [if_pos hle]
      refine List.pairwise_cons.mpr ⟨?_, hacc⟩
      intro z hz
      rcases List.mem_cons.mp hz with rfl | hz
      · exact (hx z (by simp)).1 hle
      · exact htrans ((hx y (by simp)).1 hle) (hyl z hz)
    · rw [if_neg hle]
      refine List.pairwise_cons.mpr ⟨?_, ?_⟩
      · intro w hw
        rcases mem_stableInsert le x l w hw with hwx | hwl
        · subst hwx
          exact (hx y (by simp)).2 (by simpa using hle)
        · exact hyl w hwl
      · exact ih hl (fun z hz => hx z (List.mem_cons_of_mem _ hz))

theorem stableSort_pairwise {α : Type} (le : α → α → Bool) (R P : α → α → Prop)
    (htrans : Transitive R)
    (hcomp : ∀ a b, P a b → (le a b = true → R a b) ∧ (le a b = false → R b a))
    (l : List α) (hl : l.Pairwise P) : (stableSort le l).Pairwise R := by
  induction l with
  | nil => simp [stableSort]
  | cons x t ih =>
    obtain ⟨hxt, ht⟩ := List.pairwise_cons.mp hl
    have heq : stableSort le (x :: t) = stableInsert le x (stableSort le t) := rfl
    rw [heq]
    refine stableInsert_pairwise le R htrans x _ (ih ht) ?_
    intro y hy
    exact hcomp x y (hxt y (mem_stableSort le t y hy))

/-! #### Ordering engine lemmas -/

theorem queueSpecOrder_trans : Transitive queueSpecOrder := by
  intro a b c hab hbc
  rcases hab with h1 | ⟨h1, h2 | ⟨h2, h3⟩⟩ <;>
    rcases hbc with g1 | ⟨g1, g2 | ⟨g2, g3⟩⟩
  · exact Or.inl (lt_trans h1 g1)
  · exact Or.inl (g1 ▸ h1)
  · exact Or.inl (g1 ▸ h1)
  · exact Or.inl (h1 ▸ g1)
  · exact Or.inr ⟨h1.trans g1, Or.inl (lt_trans g2 h2)⟩
  · exact Or.inr ⟨h1.trans g1, Or.inl (g2 ▸ h2)⟩
  · exact Or.inl (h1 ▸ g1)
  · exact Or.inr ⟨h1.trans g1, Or.inl (h2 ▸ g2)⟩
  · exact Or.inr ⟨h1.trans g1, Or.inr ⟨g2.trans h2, h3.trans g3⟩⟩

theorem upcomingLe_lawful (a b : QueueEntry)
    (hP : a.entry.start_ord ≤ b.entry.start_ord) :
    (upcomingLe a b = true → queueSpecOrder a b) ∧
    (upcomingLe a b = false → queueSpecOrder b a) := by
  constructor
  · intro h
    rw [upcomingLe] at h
    by_cases hdw : a.declaredWeight = b.declaredWeight
    · rw [if_neg (by simp [hdw])] at h
      simp only [decide_eq_true_eq] at h
      have hbw : b.entry.bodyweight_kg ≤ a.entry.bodyweight_kg := by linarith
      rcases lt_or_eq_of_le hbw with hlt | heq
      · exact Or.inr ⟨hdw, Or.inl hlt⟩
      · exact Or.inr ⟨hdw, Or.inr ⟨heq, hP⟩⟩
    · rw [if_pos (by simp [hdw])] at h
      simp only [decide_eq_true_eq] at h
      have : a.declaredWeight ≤ b.declaredWeight := by linarith
      exact Or.inl (lt_of_le_of_ne this hdw)
  · intro h
    rw [upcomingLe] at h
    by_cases hdw : a.declaredWeight = b.declaredWeight
    · rw [if_neg (by simp [hdw])] at h
      simp only [decide_eq_false_iff_not, not_le] at h
      have : a.entry.bodyweight_kg < b.entry.bodyweight_kg := by linarith
      exact Or.inr ⟨hdw.symm, Or.inl this⟩
    · rw [if_pos (by simp [hdw])] at h
      simp only [decide_eq_false_iff_not, not_le] at h
      have : b.declaredWeight < a.declaredWeight := by linarith
      exact Or.inl this

theorem resolveEntry_entry (attempts : List AttemptRow) (maxes : List OpenerRow)
    (liftId : String) (round : Nat) (e : GroupEntry) (q : QueueEntry)
    (h : resolveEntry attempts maxes liftId round e = some q) : q.entry = e := by
  rw [resolveEntry] at h
  by_cases h1 : (findByRegistrationAndLift attempts e.reg_id liftId).any
      (fun a => a.attempt_no == round && a.status != "PENDING")
  · rw [if_pos h1] at h
    exact absurd h (by simp)
  · rw [if_neg h1] at h
    simp only at h
    rcases hdec : (if round == 1 then getOpenerFor maxes e.reg_id liftId
        else ((findByRegistrationAndLift attempts e.reg_id liftId).find?
          (fun a => a.attempt_no == round && a.status == "PENDING")).map
            (fun a => a.weight_kg)) with _ | w
    · rw [hdec] at h
      exact absurd h (by simp)
    · rw [hdec] at h
      simp only [Option.some_bind] at h
      by_cases hw : w = 0
      · rw [if_pos hw] at h
        exact absurd h (by simp)
      · rw [if_neg hw] at h
        simp only [Option.some.injEq] at h
        rw [← h]

/-! #### Claim theorem for the ordering engine -/

/-- C2: for every group, lift and round, the queue built by
`getUpcomingOrder` from the rows of `Flight.getGroupEntries` — which
arrive ordered by `start_ord` ascending — is sorted by declared weight
ascending, then bodyweight descending on ties, then `start_ord`
ascending when both tie (the comparator never consults `start_ord`; the
tiebreak holds because the ECMAScript sort is stable over the
`start_ord`-ordered input). -/
theorem getUpcomingOrder_sorted_C2
    (entries : List GroupEntry) (attempts : List AttemptRow)
    (maxes : List OpenerRow) (liftId : String) (round : Nat)
    (hent : entries.Pairwise (fun a b => a.start_ord ≤ b.start_ord)) :
    (getUpcomingOrder entries attempts maxes liftId round).Pairwise
      queueSpecOrder := by
  rw [getUpcomingOrder]
  refine stableSort_pairwise upcomingLe queueSpecOrder
    (fun a b => a.entry.start_ord ≤ b.entry.start_ord)
    queueSpecOrder_trans upcomingLe_lawful _ ?_
  rw [List.pairwise_filterMap]
  refine hent.imp ?_
  intro a b hab q hq q' hq'
  rw [resolveEntry_entry attempts maxes liftId round a q hq,
    resolveEntry_entry attempts maxes liftId round b q' hq']
  exact hab

/-- Witness for C2: the spec's round-3 scenario — Marco and Fabio both
declare 97 kg (tie broken by bodyweight), two further athletes tie on
both keys and fall back to `start_ord`. -/
theorem getUpcomingOrder_sorted_C2_witness :
    ([⟨1, 1, 70⟩, ⟨2, 2, 75⟩, ⟨3, 3, 80⟩, ⟨4, 4, 80⟩] :
        List GroupEntry).Pairwise (fun a b => a.start_ord ≤ b.start_ord) ∧
    (getUpcomingOrder [⟨1, 1, 70⟩, ⟨2, 2, 75⟩, ⟨3, 3, 80⟩, ⟨4, 4, 80⟩]
      [⟨11, 1, "MU", 3, 97, "PENDING"⟩, ⟨12, 2, "MU", 3, 100, "PENDING"⟩,
       ⟨13, 3, "MU", 3, 97, "PENDING"⟩, ⟨14, 4, "MU", 3, 97, "PENDING"⟩]
      [] "MU" 3).Pairwise queueSpecOrder :=
  ⟨by decide,
   getUpcomingOrder_sorted_C2 _ _ _ "MU" 3 (by decide)⟩

/-! #### Claim theorems for weight declaration and finalization -/

/-- C3 counterexample: attempt 2 of registration 1 on MU exists with
status VALID (not PENDING) and attempt 1 does not exist at all, yet
`declareWeight` succeeds and overwrites the stored weight — the claimed
rejections (predecessor missing, target not PENDING) do not happen. -/
theorem declareWeight_C3_counterexample :
    declareWeight c3db 1 "MU" 2 100 = .ok ([⟨1, 1, "MU", 2, 100, "VALID"⟩], 1) ∧
    (⟨1, 1, "MU", 2, 95, "VALID"⟩ : AttemptRow) ∈ c3db := by
  constructor
  · rfl
  · decide

/-- C3 amended: `declareWeight` upserts unconditionally. If the target
attempt exists — whatever its status — it succeeds and only that row's
weight changes; if it does not exist, a new PENDING attempt is inserted,
with no check on `attempt_no - 1`; only the schema range check
`attempt_no BETWEEN 1 AND 4` can reject an insert. -/
theorem declareWeight_upsert_C3
    (db : List AttemptRow) (regId : Nat) (liftId : String) (attemptNo : Nat)
    (w : Rat) :
    (∀ ex : AttemptRow,
      (findByRegistrationAndLift db regId liftId).find?
          (fun a => a.attempt_no == attemptNo) = some ex →
      declareWeight db regId liftId attemptNo w =
        .ok (db.map (fun a => if a.id == ex.id then { a with weight_kg := w } else a),
             ex.id)) ∧
    ((db.any (fun a => a.reg_id == regId && a.lift_id == liftId &&
        a.attempt_no == attemptNo)) = false →
      1 ≤ attemptNo → attemptNo ≤ 4 →
      declareWeight db regId liftId attemptNo w =
        .ok (db ++ [⟨nextAttemptId db, regId, liftId, attemptNo, w, "PENDING"⟩],
             nextAttemptId db)) := by
  constructor
  · intro ex hex
    simp only [declareWeight]
    rw [hex]
    rfl
  · intro hany h1 h4
    have hnone : (findByRegistrationAndLift db regId liftId).find?
        (fun a => a.attempt_no == attemptNo) = none := by
      rw [List.find?_eq_none]
      intro a ha
      rw [findByRegistrationAndLift, List.mem_filter] at ha
      obtain ⟨hmem, hfil⟩ := ha
      rw [List.any_eq_false] at hany
      have h := hany a hmem
      simp only [Bool.and_eq_true, beq_iff_eq] at hfil h ⊢
      intro hno
      exact h ⟨hfil, hno⟩
    simp only [declareWeight]
    rw [hnone]
    simp only [attemptCreate]
    rw [if_neg (by simp [h1, h4]), if_neg (by decide), if_neg (by simp [hany])]

/-- Witness for C3 amended: the update path over `c3db` (status VALID)
and the create path in an empty store with no predecessor. -/
theorem declareWeight_upsert_C3_witness :
    declareWeight c3db 1 "MU" 2 100 =
      .ok (c3db.map (fun a => if a.id == 1 then { a with weight_kg := 100 } else a), 1) ∧
    declareWeight [] 5 "PU" 3 80 =
      .ok ([] ++ [⟨nextAttemptId [], 5, "PU", 3, 80, "PENDING"⟩], nextAttemptId []) :=
  ⟨(declareWeight_upsert_C3 c3db 1 "MU" 2 100).1 ⟨1, 1, "MU", 2, 95, "VALID"⟩
      (by decide),
   (declareWeight_upsert_C3 [] 5 "PU" 3 80).2 (by decide) (by decide) (by decide)⟩

/-- C4 counterexample: attempt 1 is already VALID, yet `finalizeAttempt`
succeeds and flips it to INVALID — a second status transition, with a
predecessor of INVALID that is not PENDING; the claimed rejection on
status ≠ PENDING does not happen. -/
theorem finalizeAttempt_C4_counterexample :
    finalizeAttempt c4db [] 1 "INVALID" =
      .ok ([⟨1, 1, "MU", 1, 90, "INVALID"⟩], []) ∧
    (⟨1, 1, "MU", 1, 90, "VALID"⟩ : AttemptRow) ∈ c4db := by
  constructor
  · rfl
  · decide

/-- C4 amended: `finalizeAttempt` (through the unconditional UPDATE of
`Attempt.updateStatus`) sets the status of the target row whatever its
current status is, subject only to the schema CHECK on the new value,
and clears the attempt's ballot; attempts can therefore undergo several
status transitions. -/
theorem finalizeAttempt_unconditional_C4
    (db : List AttemptRow) (votes : VoteState) (id : Nat) (st : String)
    (hst : st ∈ validStatuses) :
    finalizeAttempt db votes id st =
      .ok (db.map (fun a => if a.id == id then { a with status := st } else a),
           clearVotes votes id) := by
  simp only [finalizeAttempt, attemptUpdateStatus]
  rw [if_neg (by simp [hst])]

/-- Witness for C4 amended: re-finalizing the already-VALID attempt of
`c4db`. -/
theorem finalizeAttempt_unconditional_C4_witness :
    finalizeAttempt c4db [] 1 "INVALID" =
      .ok (c4db.map (fun a => if a.id == 1 then { a with status := "INVALID" } else a),
           clearVotes [] 1) :=
  finalizeAttempt_unconditional_C4 c4db [] 1 "INVALID" (by decide)

/-! #### Claim theorems for the state machine NEXT -/

/-- C5 counterexample: in `c5db` the meet-type sequence still holds a
further lift (PU after MU), the round-3 queue of the last group is
empty, yet `next()` reports `Flight completed` with the state unchanged
— it does not advance to the next lift and reset to the first group as
the claim states; FINISHED is entered although a lift remains. -/
theorem nextCommand_C5_counterexample :
    nextCommand c5db = .finished c5db.state (some "Flight completed") ∧
    c5db.meetTypeLifts = ["MU", "PU"] ∧
    c5db.state.current_lift_id = some "MU" := by
  refine ⟨?_, rfl, rfl⟩
  rfl

/-- C5 amended: when the round-3 queue of the current group is empty
and that group is the last of the flight, `next()` returns `Flight
completed` with the state untouched, regardless of any remaining lifts
in the meet-type sequence; the lift never advances. -/
theorem nextCommand_flightCompleted_C5
    (db : MeetDB) (flightId : Nat) (liftId : String) (groupId : Nat)
    (hf : db.state.current_flight_id = some flightId)
    (hl : db.state.current_lift_id = some liftId)
    (hg : db.state.current_group_id = some groupId)
    (hr : db.state.current_round = 3)
    (hq : getUpcomingOrder (getGroupEntries db groupId) db.attempts db.maxes
      liftId 3 = [])
    (hidx : (findGroupsByFlight db flightId).findIdx? (fun gr => gr.id == groupId)
      = some ((findGroupsByFlight db flightId).length - 1)) :
    nextCommand db = .finished db.state (some "Flight completed") := by
  unfold nextCommand
  rw [hf, hl]
  simp only [hg, hr, hq]
  unfold moveToNextGroup
  simp only [hg, hidx]
  simp

/-- Witness for C5 amended, at the concrete database `c5db`. -/
theorem nextCommand_flightCompleted_C5_witness :
    nextCommand c5db = .finished c5db.state (some "Flight completed") :=
  nextCommand_flightCompleted_C5 c5db 1 "MU" 1 rfl rfl rfl rfl (by rfl) (by rfl)

/-! #### Ranking engine lemmas -/

theorem nameLe_trans : Transitive nameLe := by
  intro a b c hab hbc
  rcases hab with h | ⟨h1, h2⟩ <;> rcases hbc with g | ⟨g1, g2⟩
  · exact Or.inl (lt_trans h g)
  · exact Or.inl (g1 ▸ h)
  · exact Or.inl (h1 ▸ g)
  · exact Or.inr ⟨h1.trans g1, le_trans h2 g2⟩

theorem rankEntryOrder_trans : Transitive rankEntryOrder := by
  intro a b c hab hbc
  rcases hab with h1 | ⟨h1, h2 | ⟨h2, h3⟩⟩ <;>
    rcases hbc with g1 | ⟨g1, g2 | ⟨g2, g3⟩⟩
  · exact Or.inl (lt_trans g1 h1)
  · exact Or.inl (g1 ▸ h1)
  · exact Or.inl (g1 ▸ h1)
  · exact Or.inl (h1 ▸ g1)
  · exact Or.inr ⟨h1.trans g1, Or.inl (lt_trans h2 g2)⟩
  · exact Or.inr ⟨h1.trans g1, Or.inl (g2 ▸ h2)⟩
  · exact Or.inl (h1 ▸ g1)
  · exact Or.inr ⟨h1.trans g1, Or.inl (h2 ▸ g2)⟩
  · exact Or.inr ⟨h1.trans g1, Or.inr ⟨h2.trans g2, nameLe_trans h3 g3⟩⟩

theorem rankLe_lawful (a b : RankEntry) (hP : nameLe a.1 b.1) :
    (rankLe a b = true → rankEntryOrder a b) ∧
    (rankLe a b = false → rankEntryOrder b a) := by
  constructor
  · intro h
    rw [rankLe] at h
    by_cases hdw : b.2 = a.2
    · rw [if_neg (by simp [hdw])] at h
      simp only [decide_eq_true_eq] at h
      have hbw : a.1.bodyweight_kg ≤ b.1.bodyweight_kg := by linarith
      rcases lt_or_eq_of_le hbw with hlt | heq
      · exact Or.inr ⟨hdw.symm, Or.inl hlt⟩
      · exact Or.inr ⟨hdw.symm, Or.inr ⟨heq, hP⟩⟩
    · rw [if_pos (by simp [hdw])] at h
      simp only [decide_eq_true_eq] at h
      have hle : b.2 ≤ a.2 := by linarith
      exact Or.inl (lt_of_le_of_ne hle hdw)
  · intro h
    rw [rankLe] at h
    by_cases hdw : b.2 = a.2
    · rw [if_neg (by simp [hdw])] at h
      simp only [decide_eq_false_iff_not, not_le] at h
      exact Or.inr ⟨hdw, Or.inl (by linarith)⟩
    · rw [if_pos (by simp [hdw])] at h
      simp only [decide_eq_false_iff_not, not_le] at h
      exact Or.inl (by linarith)

theorem groupInsert_invariant {κ α : Type} [DecidableEq κ] (P : α → α → Prop)
    (acc : List (κ × List α)) (key : κ) (x : α)
    (hacc : ∀ kv ∈ acc, kv.2.Pairwise P)
    (hx : ∀ kv ∈ acc, ∀ y ∈ kv.2, P y x) :
    (∀ kv ∈ groupInsert acc key x, kv.2.Pairwise P) ∧
    (∀ kv ∈ groupInsert acc key x, ∀ y ∈ kv.2,
      (∃ kv' ∈ acc, y ∈ kv'.2) ∨ y = x) := by
  induction acc with
  | nil =>
    constructor
    · intro kv hkv
      simp [groupInsert] at hkv
      simp [hkv]
    · intro kv hkv y hy
      simp [groupInsert] at hkv
      rw [hkv] at hy
      simp at hy
      right; exact hy
  | cons hd tl ih =>
    obtain ⟨k, xs⟩ := hd
    by_cases hk : k = key
    · rw [groupInsert, if_pos hk]
      constructor
      · intro kv hkv
        rcases List.mem_cons.mp hkv with rfl | htl
        · refine List.pairwise_append.mpr
            ⟨hacc (k, xs) (by simp), by simp, ?_⟩
          intro y hy z hz
          rw [List.mem_singleton] at hz
          subst hz
          exact hx (k, xs) (by simp) y hy
        · exact hacc kv (List.mem_cons_of_mem _ htl)
      · intro kv hkv y hy
        rcases List.mem_cons.mp hkv with rfl | htl
        · rcases List.mem_append.mp hy with hyx | hyx
          · exact Or.inl ⟨(k, xs), by simp, hyx⟩
          · rw [List.mem_singleton] at hyx
            exact Or.inr hyx
        · exact Or.inl ⟨kv, List.mem_cons_of_mem _ htl, hy⟩
    · rw [groupInsert, if_neg hk]
      have hacc' : ∀ kv ∈ tl, kv.2.Pairwise P :=
        fun kv h => hacc kv (List.mem_cons_of_mem _ h)
      have hx' : ∀ kv ∈ tl, ∀ y ∈ kv.2, P y x :=
        fun kv h => hx kv (List.mem_cons_of_mem _ h)
      obtain ⟨ih1, ih2⟩ := ih hacc' hx'
      constructor
      · intro kv hkv
        rcases List.mem_cons.mp hkv with rfl | htl
        · exact hacc (k, xs) (by simp)
        · exact ih1 kv htl
      · intro kv hkv y hy
        rcases List.mem_cons.mp hkv with rfl | htl
        · exact Or.inl ⟨(k, xs), by simp, hy⟩
        · rcases ih2 kv htl y hy with ⟨kv', hkv', hy'⟩ | rfl
          · exact Or.inl ⟨kv', List.mem_cons_of_mem _ hkv', hy'⟩
          · exact Or.inr rfl

theorem groupByCategory_pairwise (P : RankEntry → RankEntry → Prop)
    (l : List RankEntry) (hl : l.Pairwise P) :
    ∀ kv ∈ groupByCategory l, kv.2.Pairwise P := by
  suffices h : ∀ (l : List RankEntry) (acc : List (String × List RankEntry)),
      l.Pairwise P →
      (∀ kv ∈ acc, kv.2.Pairwise P) →
      (∀ kv ∈ acc, ∀ y ∈ kv.2, ∀ x ∈ l, P y x) →
      ∀ kv ∈ l.foldl (fun acc r => groupInsert acc (catKey r.1) r) acc,
        kv.2.Pairwise P by
    intro kv hkv
    exact h l [] hl (by simp) (by simp) kv hkv
  intro l0
  induction l0 with
  | nil =>
    intro acc _ hacc _ kv hkv
    simp only [List.foldl_nil] at hkv
    exact hacc kv hkv
  | cons x t ih =>
    intro acc hl0 hacc hcross kv hkv
    simp only [List.foldl_cons] at hkv
    obtain ⟨hxt, ht⟩ := List.pairwise_cons.mp hl0
    have hgi := groupInsert_invariant P acc (catKey x.1) x hacc
      (fun kv h y hy => hcross kv h y hy x (by simp))
    refine ih (groupInsert acc (catKey x.1) x) ht hgi.1 ?_ kv hkv
    intro kv' hkv' y hy x' hx'
    rcases hgi.2 kv' hkv' y hy with ⟨kv'', hkv'', hy''⟩ | rfl
    · exact hcross kv'' hkv'' y hy'' x' (List.mem_cons_of_mem _ hx')
    · exact hxt x' hx'

theorem mem_assignPlacements (key : String) (i : Nat) (l : List RankEntry)
    (r : RankedRow) (hr : r ∈ assignPlacements key i l) :
    ∃ e ∈ l, r.reg = e.1 ∧ r.total = e.2 := by
  induction l generalizing i with
  | nil => simp [assignPlacements] at hr
  | cons e es ih =>
    rw [assignPlacements] at hr
    rcases List.mem_cons.mp hr with rfl | hr
    · exact ⟨e, by simp, rfl, rfl⟩
    · obtain ⟨e', he', h1, h2⟩ := ih (i + 1) hr
      exact ⟨e', List.mem_cons_of_mem _ he', h1, h2⟩

theorem assignPlacements_pairwise (key : String) (i : Nat) (l : List RankEntry)
    (hl : l.Pairwise rankEntryOrder) :
    (assignPlacements key i l).Pairwise rankCodeOrder := by
  induction l generalizing i with
  | nil => simp [assignPlacements]
  | cons e es ih =>
    obtain ⟨he, hes⟩ := List.pairwise_cons.mp hl
    rw [assignPlacements]
    refine List.pairwise_cons.mpr ⟨?_, ih (i + 1) hes⟩
    intro r hr
    obtain ⟨e', he', hreg, htot⟩ := mem_assignPlacements key (i + 1) es r hr
    have hord := he e' he'
    simp only [rankCodeOrder, rankEntryOrder] at hord ⊢
    rw [hreg, htot]
    exact hord

theorem assignPlacements_placements (key : String) (i : Nat)
    (l : List RankEntry) :
    (assignPlacements key i l).map (fun r => r.placement) =
      List.range' (i + 1) l.length := by
  induction l generalizing i with
  | nil => simp [assignPlacements]
  | cons e es ih =>
    rw [assignPlacements, List.map_cons, List.length_cons, List.range'_succ]
    rw [ih (i + 1)]

theorem assignPlacements_length (key : String) (i : Nat) (l : List RankEntry) :
    (assignPlacements key i l).length = l.length := by
  induction l generalizing i with
  | nil => simp [assignPlacements]
  | cons e es ih =>
    rw [assignPlacements, List.length_cons, List.length_cons, ih (i + 1)]

/-! #### Claim theorems for the ranking engine -/

/-- C6 counterexample: Alpha and Beta share category, total and
bodyweight; Beta has the smaller `start_ord` (1 against 2), so the
claim puts Beta first — but the code, whose tiebreak is the
`findByMeet` name order, places Alpha first.  The produced two-row
category violates the claimed `start_ord`-ascending order. -/
theorem calculateRankings_C6_counterexample :
    calculateRankingsGrouped c6regs c6attempts "MU" =
      [("M_OPEN_OPEN",
        [⟨c6r1, 100, 1, "M_OPEN_OPEN"⟩, ⟨c6r2, 100, 2, "M_OPEN_OPEN"⟩])] ∧
    ¬ ([(⟨c6r1, 100, 1, "M_OPEN_OPEN"⟩ : RankedRow),
        ⟨c6r2, 100, 2, "M_OPEN_OPEN"⟩].Pairwise rankSpecOrder) := by
  constructor
  · simp [calculateRankingsGrouped, groupByCategory, groupInsert, catKey,
      assignPlacements, stableSort, stableInsert, rankLe, calculateTotal,
      findByRegistrationAndLift, c6regs, c6attempts, c6r1, c6r2]
  · decide

/-- C6 amended: within each category key (OPEN for an absent category
id) the ranking engine sorts by total descending, bodyweight ascending
on ties, with full ties kept in the order of `Registration.findByMeet`
(last name, first name) — not `start_ord` — and assigns placements
1..n with no sharing. -/
theorem calculateRankings_sorted_C6
    (regs : List RegRow) (attempts : List AttemptRow) (liftId : String)
    (hregs : regs.Pairwise nameLe) :
    ∀ kv ∈ calculateRankingsGrouped regs attempts liftId,
      kv.2.Pairwise rankCodeOrder ∧
      kv.2.map (fun r => r.placement) = List.range' 1 kv.2.length := by
  intro kv hkv
  rw [calculateRankingsGrouped] at hkv
  simp only [List.mem_map] at hkv
  obtain ⟨kv0, hkv0, rfl⟩ := hkv
  have hres : (regs.map
      (fun reg => (reg, calculateTotal attempts reg.id liftId))).Pairwise
        (fun a b : RankEntry => nameLe a.1 b.1) :=
    List.Pairwise.map _ (fun a b h => h) hregs
  have hval := hres.filter (fun r : RankEntry => decide (0 < r.2))
  have hbucket := groupByCategory_pairwise
    (fun a b : RankEntry => nameLe a.1 b.1) _ hval kv0 hkv0
  have hsorted : (stableSort rankLe kv0.2).Pairwise rankEntryOrder :=
    stableSort_pairwise rankLe rankEntryOrder
      (fun a b : RankEntry => nameLe a.1 b.1)
      rankEntryOrder_trans (fun a b h => rankLe_lawful a b h) kv0.2 hbucket
  refine ⟨assignPlacements_pairwise kv0.1 0 _ hsorted, ?_⟩
  rw [assignPlacements_placements, assignPlacements_length]

/-- The C6 registrations arrive in `findByMeet` name order. -/
theorem c6regs_name_ordered : c6regs.Pairwise nameLe := by
  refine List.pairwise_cons.mpr ⟨?_, by simp⟩
  intro b hb
  rw [List.mem_singleton] at hb
  subst hb
  left
  show ("Alpha" : String) < "Beta"
  simp
  decide

/-- Witness for C6 amended, at the concrete two-athlete meet. -/
theorem calculateRankings_sorted_C6_witness :
    c6regs.Pairwise nameLe ∧
    ∀ kv ∈ calculateRankingsGrouped c6regs c6attempts "MU",
      kv.2.Pairwise rankCodeOrder ∧
      kv.2.map (fun r => r.placement) = List.range' 1 kv.2.length :=
  ⟨c6regs_name_ordered,
   calculateRankings_sorted_C6 c6regs c6attempts "MU" c6regs_name_ordered⟩

/-! #### Sync resolver lemmas -/

theorem upsertAthlete_fields (r : RemoteDB) (a : LocalAthleteRow) :
    (upsertAthlete r a).federations = r.federations ∧
    (upsertAthlete r a).public_results = r.public_results := by
  unfold upsertAthlete
  split <;> exact ⟨rfl, rfl⟩

theorem foldl_upsertAthlete_fields (aths : List LocalAthleteRow) :
    ∀ r : RemoteDB,
      (aths.foldl upsertAthlete r).federations = r.federations ∧
      (aths.foldl upsertAthlete r).public_results = r.public_results := by
  induction aths with
  | nil => intro r; exact ⟨rfl, rfl⟩
  | cons a t ih =>
    intro r
    rw [List.foldl_cons]
    obtain ⟨h1, h2⟩ := ih (upsertAthlete r a)
    obtain ⟨g1, g2⟩ := upsertAthlete_fields r a
    exact ⟨h1.trans g1, h2.trans g2⟩

theorem syncAthletes_fields (l : LocalDB) (r : RemoteDB) (meetId : Nat) :
    (syncAthletes l r meetId).federations = r.federations ∧
    (syncAthletes l r meetId).public_results = r.public_results :=
  foldl_upsertAthlete_fields _ r

theorem createRemoteMeet_public_results (r r2 : RemoteDB)
    (meet : LocalMeetRow) (mid : Nat)
    (h : createRemoteMeet r meet = .ok (r2, mid)) :
    r2.public_results = r.public_results := by
  unfold createRemoteMeet at h
  rcases hf : r.federations with _ | ⟨fid, rest⟩ <;> rw [hf] at h
  · exact absurd h (by simp)
  · rcases hfind : r.public_meets.find? (fun m => m.meet_code == meet.meet_code)
        with _ | m <;> rw [hfind] at h <;>
      simp only [Except.ok.injEq, Prod.mk.injEq] at h <;>
      rw [← h.1]

theorem recordsStep_public_results (r r' : RemoteDB) (wcid acid : Nat)
    (liftName : String) (w : Rat) (cf meetCode today : String)
    (h : recordsStep r wcid acid liftName w cf meetCode today = .ok r') :
    r'.public_results = r.public_results := by
  unfold recordsStep at h
  split at h
  · exact absurd h (by simp)
  · split at h <;> simp only [Except.ok.injEq] at h <;> rw [← h]

theorem processLifts_public_results (wcid acid : Nat)
    (cf meetCode today : String) (ls : List (String × Option Rat)) :
    ∀ r : RemoteDB,
      ((processLifts r wcid acid cf meetCode today ls).1).public_results =
        r.public_results := by
  induction ls with
  | nil => intro r; rfl
  | cons hd rest ih =>
    intro r
    obtain ⟨liftName, w?⟩ := hd
    simp only [processLifts]
    split
    · exact ih r
    · split
      · exact ih r
      · split
        · rfl
        · rename_i r' hstep
          exact (ih r').trans
            (recordsStep_public_results r r' wcid acid liftName _ cf meetCode
              today hstep)

theorem processResults_public_results (l : LocalDB) (meetCode today : String)
    (results : List ResultQueryRow) :
    ∀ r : RemoteDB,
      ((processResults l meetCode today r results).1).public_results =
        r.public_results := by
  induction results with
  | nil => intro r; rfl
  | cons res rest ih =>
    intro r
    simp only [processResults]
    split
    · rename_i wcid acid hwc hac
      split
      · rename_i r' hpl
        have hr' : r'.public_results = r.public_results := by
          have hall := processLifts_public_results wcid acid res.cf meetCode
            today [("MU", res.best_mu), ("PU", res.best_pu),
              ("DIP", res.best_dip), ("SQ", res.best_sq), ("MP", res.best_mp)] r
          rw [hpl] at hall
          exact hall
        exact (ih r').trans hr'
      · rename_i r' e hpl
        have hall := processLifts_public_results wcid acid res.cf meetCode
          today [("MU", res.best_mu), ("PU", res.best_pu),
            ("DIP", res.best_dip), ("SQ", res.best_sq), ("MP", res.best_mp)] r
        rw [hpl] at hall
        exact hall
    · exact ih r

/-! #### Claim theorems for the sync resolver -/

/-- C7 counterexample: syncing `c7local` against a remote archive with
no federation seeded fails in `createRemoteMeet`, after `syncAthletes`
already upserted the athlete — the failed run leaves the remote archive
changed, so the writes are not inside a rolled-back transaction. -/
theorem syncToRemote_C7_counterexample :
    (syncToRemote c7local "M-1" "2025-06-01" c7remote).2 =
      some "No federation found in remote database. Please run: node src/database/remote/seed.js" ∧
    (syncToRemote c7local "M-1" "2025-06-01" c7remote).1.athletes_history ≠ [] ∧
    (syncToRemote c7local "M-1" "2025-06-01" c7remote).1 ≠ c7remote := by
  refine ⟨by decide, by decide, by decide⟩

/-- C7 amended: the sync performs its remote writes statement by
statement with no surrounding transaction; when a later step fails —
here `createRemoteMeet` with no federation — the run stops with the
error while the athlete upserts already performed remain in the remote
archive. -/
theorem syncToRemote_partial_C7
    (l : LocalDB) (code today : String) (r : RemoteDB) (meet : LocalMeetRow)
    (hm : l.meets.find? (fun m => m.meet_code == code) = some meet)
    (hf : r.federations = []) :
    syncToRemote l code today r =
      (syncAthletes l r meet.id,
       some "No federation found in remote database. Please run: node src/database/remote/seed.js") := by
  rw [syncToRemote, hm]
  simp only []
  have hcf : createRemoteMeet (syncAthletes l r meet.id) meet = .error
      "No federation found in remote database. Please run: node src/database/remote/seed.js" := by
    unfold createRemoteMeet
    rw [(syncAthletes_fields l r meet.id).1, hf]
  rw [hcf]

/-- Witness for C7 amended, at the concrete meet and empty-federation
remote. -/
theorem syncToRemote_partial_C7_witness :
    syncToRemote c7local "M-1" "2025-06-01" c7remote =
      (syncAthletes c7local c7remote 1,
       some "No federation found in remote database. Please run: node src/database/remote/seed.js") :=
  syncToRemote_partial_C7 c7local "M-1" "2025-06-01" c7remote
    ⟨1, "M-1", "Meet One", "2025-05-01", "REGIONALE", "WL_COEFF_2025", "[MU]"⟩
    (by decide) rfl

/-- C8 counterexample: the second sync of meet `M-2` does not stop with
`AlreadySynced` — no such check exists — and appends a second copy of
the result row, so the remote rows for the meet are not left unchanged. -/
theorem syncToRemote_C8_counterexample :
    (syncToRemote c8local "M-2" "2025-06-01" c8remote).2 = none ∧
    (syncToRemote c8local "M-2" "2025-06-02" c8run1).2 = none ∧
    c8run1.public_results.length = 1 ∧
    (syncToRemote c8local "M-2" "2025-06-02" c8run1).1.public_results.length = 2 := by
  refine ⟨by decide, by decide, by decide, by decide⟩

/-- C8 amended: the resolver never checks whether the meet is already
on the remote (there is no `AlreadySynced` outcome and no `--force`
flag); a re-run whose steps succeed returns success and appends one new
`public_results` row per mapped result, growing the remote state. -/
theorem syncToRemote_resync_C8
    (l : LocalDB) (code today : String) (r r2 : RemoteDB) (mid : Nat)
    (meet : LocalMeetRow)
    (hm : l.meets.find? (fun m => m.meet_code == code) = some meet)
    (hcm : createRemoteMeet (syncAthletes l r meet.id) meet = .ok (r2, mid))
    (hrec : (checkAndUpdateRecords l
        (uploadResults r2 mid (getResults l meet.id) l) (getResults l meet.id)
        code today).2 = none) :
    (syncToRemote l code today r).2 = none ∧
    (syncToRemote l code today r).1.public_results.length =
      r.public_results.length +
        (mappedResults r2 l (getResults l meet.id)).length := by
  have hsync : syncToRemote l code today r =
      checkAndUpdateRecords l (uploadResults r2 mid (getResults l meet.id) l)
        (getResults l meet.id) code today := by
    rw [syncToRemote, hm]
    simp only []
    rw [hcm]
  refine ⟨by rw [hsync]; exact hrec, ?_⟩
  rw [hsync, checkAndUpdateRecords,
    processResults_public_results l code today (getResults l meet.id)
      (uploadResults r2 mid (getResults l meet.id) l)]
  rw [uploadResults]
  simp only [List.length_append, List.length_map]
  rw [createRemoteMeet_public_results _ _ _ _ hcm,
    (syncAthletes_fields l r meet.id).2]

/-- Witness for C8 amended: the second run over the archive produced by
the first sync of `M-2`. -/
theorem syncToRemote_resync_C8_witness :
    (syncToRemote c8local "M-2" "2025-06-02" c8run1).2 = none ∧
    (syncToRemote c8local "M-2" "2025-06-02" c8run1).1.public_results.length =
      c8run1.public_results.length +
        (mappedResults c8r2 c8local (getResults c8local 1)).length :=
  syncToRemote_resync_C8 c8local "M-2" "2025-06-02" c8run1 c8r2 1 c8meet
    rfl rfl rfl

/-- C9: evaluation at the failing input.  The strictly-greater gate
behaves as claimed — the tied 95 kg MU record is not promoted, the
100 kg PU best is — but the promoted record still carries the previous
holder's bodyweight 70 instead of the athlete's 80: the upsert never
writes `bodyweight_kg`.  When no current record exists the insert
violates the schema's NOT NULL on that column and the sync throws. -/
theorem checkAndUpdateRecords_C9_theorem :
    checkAndUpdateRecords c9local c9remote (getResults c9local 1) "M-9"
        "2025-07-02" =
      ({ c9remote with public_records :=
          [⟨11, 12, "PU", 100, some 70, some "F1", some "M-9", some "2025-07-02"⟩,
           ⟨11, 12, "MU", 95, some 72, some "OLD2", some "M-OLD",
            some "2024-01-01"⟩] },
       none) ∧
    (getResults c9local 1).map (fun res => res.bodyweight_kg) = [80] ∧
    (checkAndUpdateRecords c9local { c9remote with public_records := [] }
        (getResults c9local 1) "M-9" "2025-07-02").2 =
      some "null value in column bodyweight_kg of public_records violates not-null constraint" := by
  refine ⟨by decide, by decide, by decide⟩

/-- Witness for C10: a run mixing a valid and an invalid vote, plus the
two rejection modes at concrete bad inputs. -/
theorem voteState_invariant_C10_witness :
    (VoteStateOK (runOps [VoteOp.reg 7 "HEAD" "WHITE", VoteOp.reg 7 "SIDE" "RED"]) ∧
      ∀ a, getVoteCount (runOps [VoteOp.reg 7 "HEAD" "WHITE", VoteOp.reg 7 "SIDE" "RED"]) a ≤ 3) ∧
    registerVote [] 7 "SIDE" "WHITE" = .error ("Invalid judge role: " ++ "SIDE") ∧
    registerVote [] 7 "HEAD" "BLUE" = .error ("Invalid vote: " ++ "BLUE") :=
  ⟨voteState_invariant_C10.1 _,
   (voteState_invariant_C10.2.1 [] 7 "SIDE" "WHITE" (by decide)).1,
   (voteState_invariant_C10.2.2 [] 7 "HEAD" "BLUE" (by decide) (by decide)).1⟩

end StreetControl
